import Mathlib

/-!
# Polling service: poll lifecycle and participant registry

A shallow embedding of `src/services/pollService.js`.

The two module-level objects of the service, `polls` and `connectedStudents`,
form the state.  A JavaScript object used as a map is an association list in
the enumeration order of `Object.keys`; its keys are distinct.  Socket ids are
connection ids produced by the transport layer and poll ids come from
`generateId`; neither is the name of a property of `Object.prototype`, so
`obj[k]` is `undefined` exactly when `k` is not a key.

Each operation returns the state it leaves behind, the events it broadcast and
the message of the error it threw, if any.  An operation that throws keeps the
mutations made before the `throw`.

Two inputs come from outside the service and are taken as arguments: the id
returned by `generateId()` and the text of `new Date().toISOString()`.
The option index and the time limit are integers.

The two timers are calls that may come at any time: the auto-close timer is a
call of `endPoll`, the cleanup timer is the call `cleanup`.
-/

namespace Polling

abbrev SocketId := String
abbrev PollId := String

/-! ## Strings -/

/-- The code points removed by `String.prototype.trim`: the ECMAScript
WhiteSpace and LineTerminator productions. -/
def isTrimChar (c : Char) : Bool :=
  let n := c.toNat
  n == 0x09 || n == 0x0A || n == 0x0B || n == 0x0C || n == 0x0D || n == 0x20 ||
  n == 0xA0 || n == 0x1680 || (0x2000 ≤ n && n ≤ 0x200A) || n == 0x2028 ||
  n == 0x2029 || n == 0x202F || n == 0x205F || n == 0x3000 || n == 0xFEFF

/-- The method `s.trim()`. -/
def trim (s : String) : String :=
  String.mk ((s.toList.dropWhile isTrimChar).reverse.dropWhile isTrimChar).reverse

/-- The method `s.startsWith(p)`. -/
def startsWith (s p : String) : Bool :=
  p.toList.isPrefixOf s.toList

/-! ## Objects used as maps -/

/-- The read `obj[k]`, with `none` for `undefined`. -/
def lookupKey {α : Type} (k : String) : List (String × α) → Option α
  | [] => none
  | (k1, v) :: rest => if k1 = k then some v else lookupKey k rest

/-- The write `obj[k] = v`: an existing key keeps its place, a new key goes last. -/
def setKey {α : Type} (k : String) (v : α) : List (String × α) → List (String × α)
  | [] => [(k, v)]
  | (k1, v1) :: rest => if k1 = k then (k1, v) :: rest else (k1, v1) :: setKey k v rest

/-- The statement `delete obj[k]`. -/
def deleteKey {α : Type} (k : String) (m : List (String × α)) : List (String × α) :=
  m.filter (fun e => decide (e.1 ≠ k))

/-- The keys, as `Object.keys(obj)`. -/
def keys {α : Type} (m : List (String × α)) : List String :=
  m.map Prod.fst

/-! ## Data model -/

inductive Status where
  | active
  | finished
  deriving DecidableEq, Repr

/-- A registry entry `{ name, connectedAt }` or a poll member `{ name }`. -/
structure Student where
  name : String
  connectedAt : Option String
  deriving DecidableEq, Repr

/-- An option `{ text, count }`. -/
structure PollOption where
  text : String
  count : Int
  deriving DecidableEq, Repr

/-- A poll object.  The field `timer` holds the delay in milliseconds of the
pending auto-close timeout, `none` for `null`. -/
structure Poll where
  id : PollId
  question : String
  options : List PollOption
  responses : List (SocketId × Int)
  students : List (SocketId × Student)
  status : Status
  timeLimit : Int
  teacherSocketId : Option SocketId
  timer : Option Int
  createdAt : String
  deriving DecidableEq, Repr

/-- The module state: the poll store `polls` and the registry `connectedStudents`. -/
structure State where
  polls : List (PollId × Poll)
  connectedStudents : List (SocketId × Student)
  deriving DecidableEq, Repr

/-- The state at start-up: both objects are empty. -/
def State.empty : State :=
  { polls := [], connectedStudents := [] }

/-- The events handed to `io.emit`, and the direct notice `s.emit('removed')`. -/
inductive Event where
  | pollStarted (pollId : PollId) (question : String) (options : List String) (timeLimit : Int)
  | studentJoined (socketId : SocketId) (name : String)
  | pollUpdate (pollId : PollId) (counts : List Int) (answered : Nat) (totalStudents : Nat)
  | pollResults (pollId : PollId) (finalCounts : List Int) (options : List String)
  | studentRemoved (studentId : SocketId)
  | studentLeft (socketId : SocketId)
  | removed (studentId : SocketId)
  deriving DecidableEq, Repr

/-- What a call leaves behind: the state, the broadcasts in order, and the
message of the thrown error (`none` when the call returned). -/
structure Outcome where
  state : State
  events : List Event
  error : Option String
  deriving DecidableEq, Repr

/-! ## Operations -/

/-- The function `getActivePoll`: the first poll of `Object.values(polls)` whose status is active. -/
def getActivePoll (s : State) : Option Poll :=
  (s.polls.find? (fun e => decide (e.2.status = Status.active))).map Prod.snd

/-- A mutation of the object returned by `getActivePoll`, seen in the store. -/
def mutateActive (f : Poll → Poll) : List (PollId × Poll) → List (PollId × Poll)
  | [] => []
  | (k, p) :: rest =>
    if p.status = Status.active then (k, f p) :: rest else (k, p) :: mutateActive f rest

/-- The update in place of element `i` of an array that has one. -/
def modifyAt {α : Type} (f : α → α) : Nat → List α → List α
  | _, [] => []
  | 0, a :: l => f a :: l
  | n + 1, a :: l => a :: modifyAt f n l

/-- The element `options[idx]` of the options array, `none` for `undefined`. -/
def optionAt (options : List PollOption) (idx : Int) : Option PollOption :=
  if idx < 0 then none else options[idx.toNat]?

/-- The write `options[idx].count = c`. -/
def setCount (options : List PollOption) (idx : Int) (c : Int) : List PollOption :=
  modifyAt (fun o => { o with count := c }) idx.toNat options

/-- The projection `poll.options.map(o => o.count)`. -/
def counts (poll : Poll) : List Int :=
  poll.options.map PollOption.count

/-- The payload of `server:pollUpdate`. -/
def pollUpdate (poll : Poll) : Event :=
  Event.pollUpdate poll.id (counts poll) (keys poll.responses).length (keys poll.students).length

/-- The function `endPoll`. -/
def endPoll (s : State) (pollId : PollId) : Outcome :=
  match lookupKey pollId s.polls with
  | none => { state := s, events := [], error := none }
  | some poll =>
    if poll.status = Status.finished then { state := s, events := [], error := none }
    else
      let poll1 : Poll :=
        { poll with status := Status.finished,
                    timer := if poll.timer.isSome then none else poll.timer }
      { state := { s with polls := setKey pollId poll1 s.polls },
        events := [Event.pollResults poll1.id (counts poll1) (poll1.options.map PollOption.text)],
        error := none }

/-- The callback scheduled by `endPoll`: `delete polls[pollId]`. -/
def cleanup (s : State) (pollId : PollId) : Outcome :=
  { state := { s with polls := deleteKey pollId s.polls }, events := [], error := none }

/-- The function `createPoll`; `id` is the value of `generateId()` and `now` the creation time. -/
def createPoll (s : State) (question : String) (options : List String) (timeLimit : Int)
    (teacherSocketId : Option SocketId) (id : PollId) (now : String) : Outcome :=
  if trim question = "" then
    { state := s, events := [], error := some "Question is required" }
  else if options.length < 2 then
    { state := s, events := [], error := some "At least 2 options are required" }
  else
    let validOptions := options.filter (fun opt => decide (trim opt ≠ ""))
    if validOptions.length < 2 then
      { state := s, events := [], error := some "At least 2 valid options are required" }
    else if timeLimit < 10 ∨ timeLimit > 3600 then
      { state := s, events := [],
        error := some "Time limit must be between 10 and 3600 seconds" }
    else if (getActivePoll s).isSome then
      { state := s, events := [], error := some "Another poll is currently active" }
    else
      let poll : Poll :=
        { id := id
          question := trim question
          options := validOptions.map (fun opt => { text := trim opt, count := 0 })
          responses := []
          students := s.connectedStudents
          status := Status.active
          timeLimit := timeLimit
          teacherSocketId := teacherSocketId
          timer := some (timeLimit * 1000)
          createdAt := now }
      { state := { s with polls := setKey id poll s.polls },
        events := [Event.pollStarted id poll.question (poll.options.map PollOption.text)
                    poll.timeLimit],
        error := none }

/-- The function `addStudent`. -/
def addStudent (s : State) (socketId : SocketId) (name : String) (now : String) : Outcome :=
  if trim name = "" then
    { state := s, events := [], error := some "Valid name is required" }
  else
    let cleanName := trim name
    let registry := setKey socketId { name := cleanName, connectedAt := some now }
      s.connectedStudents
    match getActivePoll s with
    | none =>
      { state := { s with connectedStudents := registry },
        events := [Event.studentJoined socketId cleanName], error := none }
    | some poll =>
      let poll1 : Poll :=
        { poll with students := setKey socketId { name := cleanName, connectedAt := none }
                      poll.students }
      { state := { polls := mutateActive (fun _ => poll1) s.polls,
                   connectedStudents := registry },
        events := [Event.studentJoined socketId cleanName, pollUpdate poll1],
        error := none }

/-- The number `anonNumber` of `submitAnswer`: one more than the number of
members whose name starts with `Anonymous`. -/
def anonNumber (poll : Poll) : Nat :=
  ((keys poll.students).filter (fun id =>
    match lookupKey id poll.students with
    | some st => startsWith st.name "Anonymous"
    | none => false)).length + 1

/-- The template string of `submitAnswer` for the placeholder name. -/
def anonName (poll : Poll) : String :=
  "Anonymous" ++ toString (anonNumber poll)

/-- The block of `submitAnswer` that lets the voter into the poll: a voter who
is not a member joins under the registry name, or, when the registry does not
know the voter either, under a placeholder name that is also registered.  The
result is the poll, the registry and the broadcasts. -/
def autoJoin (s : State) (poll : Poll) (socketId : SocketId) (now : String) :
    Poll × List (SocketId × Student) × List Event :=
  match lookupKey socketId poll.students, lookupKey socketId s.connectedStudents with
  | none, some reg =>
    ({ poll with students := setKey socketId { name := reg.name, connectedAt := none }
                   poll.students },
     s.connectedStudents, [Event.studentJoined socketId reg.name])
  | none, none =>
    ({ poll with students := setKey socketId { name := anonName poll, connectedAt := none }
                   poll.students },
     setKey socketId { name := anonName poll, connectedAt := some now } s.connectedStudents,
     [Event.studentJoined socketId (anonName poll)])
  | some _, _ => (poll, s.connectedStudents, [])

/-- The block of `submitAnswer` that records the response and increments the count. -/
def recordVote (poll : Poll) (socketId : SocketId) (optionIndex : Int) : Poll :=
  { poll with
      responses := setKey socketId optionIndex poll.responses
      options := modifyAt (fun o => { o with count := o.count + 1 }) optionIndex.toNat
        poll.options }

/-- The function `submitAnswer`. -/
def submitAnswer (s : State) (socketId : SocketId) (optionIndex : Int) (now : String) :
    Outcome :=
  match getActivePoll s with
  | none => { state := s, events := [], error := some "No active poll" }
  | some poll =>
    if poll.status ≠ Status.active then
      { state := s, events := [], error := some "Poll is not active" }
    else if (lookupKey socketId poll.responses).isSome then
      { state := s, events := [], error := some "You have already answered" }
    else
      let joined := autoJoin s poll socketId now
      let poll1 := joined.1
      let registry := joined.2.1
      if optionIndex < 0 ∨ optionIndex ≥ (poll1.options.length : Int) then
        { state := { polls := mutateActive (fun _ => poll1) s.polls,
                     connectedStudents := registry },
          events := joined.2.2, error := some "Invalid option" }
      else
        let poll2 := recordVote poll1 socketId optionIndex
        let totalStudents := (keys poll2.students).length
        let totalResponses := (keys poll2.responses).length
        let s2 : State :=
          { polls := mutateActive (fun _ => poll2) s.polls, connectedStudents := registry }
        let events := joined.2.2 ++ [pollUpdate poll2]
        if totalStudents > 0 ∧ totalResponses ≥ totalStudents then
          let ended := endPoll s2 poll2.id
          { state := ended.state, events := events ++ ended.events, error := none }
        else
          { state := s2, events := events, error := none }

/-- The removal of a member from the active poll, shared by `removeStudent`
and `handleDisconnect`: the vote, if any, is withdrawn, then the member is
deleted.  The result is `none` when `options[idx]` is `undefined`, where the
source throws a `TypeError` before changing the poll. -/
def withdraw (poll : Poll) (id : SocketId) : Option Poll :=
  match lookupKey id poll.responses with
  | some idx =>
    match optionAt poll.options idx with
    | none => none
    | some o =>
      some { poll with options := setCount poll.options idx (max 0 (o.count - 1))
                       responses := deleteKey id poll.responses
                       students := deleteKey id poll.students }
  | none => some { poll with students := deleteKey id poll.students }

/-- The function `removeStudent`; `socketFound` tells whether
`io.sockets.sockets.get(studentId)` finds a socket. -/
def removeStudent (s : State) (studentId : SocketId) (socketFound : Bool) : Outcome :=
  let registry := deleteKey studentId s.connectedStudents
  match getActivePoll s with
  | none => { state := { s with connectedStudents := registry }, events := [], error := none }
  | some poll =>
    if (lookupKey studentId poll.students).isSome then
      match withdraw poll studentId with
      | none =>
        { state := { s with connectedStudents := registry }, events := [],
          error := some "TypeError" }
      | some poll1 =>
        { state := { polls := mutateActive (fun _ => poll1) s.polls,
                     connectedStudents := registry },
          events := [Event.studentRemoved studentId, pollUpdate poll1] ++
            (if socketFound then [Event.removed studentId] else []),
          error := none }
    else
      { state := { s with connectedStudents := registry }, events := [], error := none }

/-- The function `handleDisconnect`. -/
def handleDisconnect (s : State) (socketId : SocketId) : Outcome :=
  let registry := deleteKey socketId s.connectedStudents
  match getActivePoll s with
  | none => { state := { s with connectedStudents := registry }, events := [], error := none }
  | some poll =>
    if (lookupKey socketId poll.students).isSome then
      match withdraw poll socketId with
      | none =>
        { state := { s with connectedStudents := registry }, events := [],
          error := some "TypeError" }
      | some poll1 =>
        { state := { polls := mutateActive (fun _ => poll1) s.polls,
                     connectedStudents := registry },
          events := [Event.studentLeft socketId, pollUpdate poll1],
          error := none }
    else
      { state := { s with connectedStudents := registry }, events := [], error := none }

/-! ## Calls and reachable states -/

/-- A call into the service, with the outside inputs it consumes. -/
inductive Op where
  | createPoll (question : String) (options : List String) (timeLimit : Int)
      (teacherSocketId : Option SocketId) (id : PollId) (now : String)
  | addStudent (socketId : SocketId) (name : String) (now : String)
  | submitAnswer (socketId : SocketId) (optionIndex : Int) (now : String)
  | endPoll (pollId : PollId)
  | removeStudent (studentId : SocketId) (socketFound : Bool)
  | handleDisconnect (socketId : SocketId)
  | cleanup (pollId : PollId)
  deriving DecidableEq, Repr

/-- The outcome of one call. -/
def run (s : State) : Op → Outcome
  | Op.createPoll q os tl t id now => createPoll s q os tl t id now
  | Op.addStudent id name now => addStudent s id name now
  | Op.submitAnswer id k now => submitAnswer s id k now
  | Op.endPoll id => endPoll s id
  | Op.removeStudent id found => removeStudent s id found
  | Op.handleDisconnect id => handleDisconnect s id
  | Op.cleanup id => cleanup s id

/-- The state after a sequence of calls. -/
def runAll (s : State) : List Op → State
  | [] => s
  | op :: rest => runAll (run s op).state rest

/-- The states the service can be in: those reached from the start-up state by
calls, whether they return or throw, and by firings of the cleanup timer. -/
inductive Reachable : State → Prop where
  | empty : Reachable State.empty
  | step {s : State} (op : Op) : Reachable s → Reachable (run s op).state


/-! ## Properties of states -/

/-- The number of entries of a responses object whose value is `i`. -/
def votesIn (responses : List (SocketId × Int)) (i : Int) : Nat :=
  (responses.filter (fun e => decide (e.2 = i))).length

/-- The number of entries of `poll.responses` whose value is `i`. -/
def votesFor (poll : Poll) (i : Int) : Nat :=
  votesIn poll.responses i

/-- The number of polls of a store whose status is active. -/
def activeIn (polls : List (PollId × Poll)) : Nat :=
  (polls.filter (fun e => decide (e.2.status = Status.active))).length

/-- The number of polls of the store whose status is active. -/
def activeCount (s : State) : Nat :=
  activeIn s.polls

/-- The consistency of one poll object: its maps have distinct keys, every
respondent is a member, every recorded index is an index of `options`, every
count is the number of votes for its option, and a finished poll has no timer. -/
structure PollInv (p : Poll) : Prop where
  responsesNodup : (keys p.responses).Nodup
  studentsNodup : (keys p.students).Nodup
  respondents : ∀ k, k ∈ keys p.responses → k ∈ keys p.students
  inRange : ∀ e ∈ p.responses, 0 ≤ e.2 ∧ e.2 < (p.options.length : Int)
  tally : ∀ (i : Nat) (o : PollOption), p.options[i]? = some o → o.count = (votesFor p i : Int)
  total : (counts p).sum = ((keys p.responses).length : Int)
  timerCleared : p.status = Status.finished → p.timer = none

/-- The consistency of the module state. -/
structure Inv (s : State) : Prop where
  pollKeys : (keys s.polls).Nodup
  keyIsId : ∀ e ∈ s.polls, e.1 = e.2.id
  oneActive : activeCount s ≤ 1
  registryNodup : (keys s.connectedStudents).Nodup
  polls : ∀ e ∈ s.polls, PollInv e.2

/-- The number of participants of a poll whose name starts with `Anonymous`. -/
def anonCount (poll : Poll) : Nat :=
  (poll.students.filter (fun e => startsWith e.2.name "Anonymous")).length

/-- The frame of a removal of `id` that takes state `s` to state `t`: the
registry of `t` has no entry for `id` and agrees with that of `s` on every
other id, and the poll store is untouched unless `id` is a member of the
active poll of `s`. -/
def RemovalFrame (s t : State) (id : SocketId) : Prop :=
  lookupKey id t.connectedStudents = none ∧
  (∀ k, k ≠ id → lookupKey k t.connectedStudents = lookupKey k s.connectedStudents) ∧
  ((∀ poll, getActivePoll s = some poll → id ∉ keys poll.students) → t.polls = s.polls)

/-- The status of every poll of the store, in store order. -/
def statuses (s : State) : List (PollId × Status) :=
  s.polls.map (fun e => (e.1, e.2.status))

/-! ## Example states -/

namespace Example

/-- The calls of the colour scenario up to the first vote: a poll is created,
`A` and `B` join, `A` votes for option 0. -/
def firstCalls : List Op :=
  [Op.createPoll "Best color?" ["Red", "Blue"] 30 none "p1" "t0",
   Op.addStudent "A" "Ann" "t1", Op.addStudent "B" "Bob" "t2", Op.submitAnswer "A" 0 "t3"]

/-- The state after `firstCalls`. -/
def afterFirstVote : State :=
  runAll State.empty firstCalls

/-- The poll of `afterFirstVote`. -/
def pollAfterFirstVote : Poll :=
  { id := "p1"
    question := "Best color?"
    options := [{ text := "Red", count := 1 }, { text := "Blue", count := 0 }]
    responses := [("A", 0)]
    students := [("A", { name := "Ann", connectedAt := none }),
                 ("B", { name := "Bob", connectedAt := none })]
    status := Status.active
    timeLimit := 30
    teacherSocketId := none
    timer := some 30000
    createdAt := "t0" }

/-- The state after both members have voted: `B` votes for option 1. -/
def afterSecondVote : State :=
  runAll afterFirstVote [Op.submitAnswer "B" 1 "t4"]

/-- The poll of `afterSecondVote`. -/
def pollAfterSecondVote : Poll :=
  { id := "p1"
    question := "Best color?"
    options := [{ text := "Red", count := 1 }, { text := "Blue", count := 1 }]
    responses := [("A", 0), ("B", 1)]
    students := [("A", { name := "Ann", connectedAt := none }),
                 ("B", { name := "Bob", connectedAt := none })]
    status := Status.finished
    timeLimit := 30
    teacherSocketId := none
    timer := none
    createdAt := "t0" }

/-- A state with an active poll whose only member is `X`, who has not voted. -/
def afterXJoins : State :=
  runAll State.empty
    [Op.createPoll "Best color?" ["Red", "Blue"] 30 none "p1" "t0", Op.addStudent "X" "Xi" "t1"]

/-- The poll of `afterXJoins`. -/
def pollAfterXJoins : Poll :=
  { id := "p1"
    question := "Best color?"
    options := [{ text := "Red", count := 0 }, { text := "Blue", count := 0 }]
    responses := []
    students := [("X", { name := "Xi", connectedAt := none })]
    status := Status.active
    timeLimit := 30
    teacherSocketId := none
    timer := some 30000
    createdAt := "t0" }

/-- The state after `A` has voted and `B` has disconnected. -/
def afterBLeaves : State :=
  runAll afterFirstVote [Op.handleDisconnect "B"]

/-- The poll of `afterBLeaves`. -/
def pollAfterBLeaves : Poll :=
  { pollAfterFirstVote with students := [("A", { name := "Ann", connectedAt := none })] }

/-- The calls of the placeholder scenario up to the votes of `u1` and `u2`:
`X` joins the poll and never votes, the unknown ids `u1` and `u2` vote. -/
def anonymousCalls : List Op :=
  [Op.createPoll "Best color?" ["Red", "Blue"] 30 none "p1" "t0",
   Op.addStudent "X" "Xi" "t1", Op.submitAnswer "u1" 0 "t2", Op.submitAnswer "u2" 0 "t3"]

/-- The state after `anonymousCalls`. -/
def afterTwoAnonymous : State :=
  runAll State.empty anonymousCalls

/-- The poll of `afterTwoAnonymous`. -/
def pollAfterTwoAnonymous : Poll :=
  { id := "p1"
    question := "Best color?"
    options := [{ text := "Red", count := 2 }, { text := "Blue", count := 0 }]
    responses := [("u1", 0), ("u2", 0)]
    students := [("X", { name := "Xi", connectedAt := none }),
                 ("u1", { name := "Anonymous1", connectedAt := none }),
                 ("u2", { name := "Anonymous2", connectedAt := none })]
    status := Status.active
    timeLimit := 30
    teacherSocketId := none
    timer := some 30000
    createdAt := "t0" }

/-- The state after `u1` is removed and the unknown id `u3` votes. -/
def afterThirdAnonymous : State :=
  runAll afterTwoAnonymous [Op.removeStudent "u1" true, Op.submitAnswer "u3" 1 "t4"]

/-- The poll of `afterThirdAnonymous`. -/
def pollAfterThirdAnonymous : Poll :=
  { id := "p1"
    question := "Best color?"
    options := [{ text := "Red", count := 1 }, { text := "Blue", count := 1 }]
    responses := [("u2", 0), ("u3", 1)]
    students := [("X", { name := "Xi", connectedAt := none }),
                 ("u2", { name := "Anonymous2", connectedAt := none }),
                 ("u3", { name := "Anonymous2", connectedAt := none })]
    status := Status.active
    timeLimit := 30
    teacherSocketId := none
    timer := some 30000
    createdAt := "t0" }

end Example

/-! ## Lemmas on objects used as maps -/

section Maps
variable {α : Type}

theorem lookupKey_eq_none_iff (k : String) (m : List (String × α)) :
    lookupKey k m = none ↔ k ∉ keys m := by
  induction m with
  | nil => simp [lookupKey, keys]
  | cons e m ih =>
    obtain ⟨k1, v⟩ := e
    by_cases h : k1 = k
    · simp [lookupKey, keys, h]
    · have h2 : ¬ k = k1 := fun h3 => h h3.symm
      simp only [keys] at ih
      simp [lookupKey, keys, h, h2, ih]

theorem lookupKey_isSome_iff (k : String) (m : List (String × α)) :
    (lookupKey k m).isSome = true ↔ k ∈ keys m := by
  rw [← not_iff_not, ← lookupKey_eq_none_iff]
  cases lookupKey k m <;> simp

theorem mem_of_lookupKey {k : String} {v : α} {m : List (String × α)}
    (h : lookupKey k m = some v) : (k, v) ∈ m := by
  induction m with
  | nil => simp [lookupKey] at h
  | cons e m ih =>
    obtain ⟨k1, v1⟩ := e
    by_cases hk : k1 = k
    · simp [lookupKey, hk] at h
      simp [hk, h]
    · simp [lookupKey, hk] at h
      exact List.mem_cons_of_mem _ (ih h)

theorem lookupKey_of_mem {k : String} {v : α} {m : List (String × α)}
    (hn : (keys m).Nodup) (h : (k, v) ∈ m) : lookupKey k m = some v := by
  induction m with
  | nil => simp at h
  | cons e m ih =>
    obtain ⟨k1, v1⟩ := e
    simp only [keys, List.map_cons, List.nodup_cons] at hn
    rcases List.mem_cons.mp h with h1 | h1
    · cases h1
      simp [lookupKey]
    · have hk : k1 ≠ k := by
        intro h2
        subst h2
        exact hn.1 (List.mem_map_of_mem Prod.fst h1)
      simp only [lookupKey, hk, if_false]
      exact ih hn.2 h1

theorem lookupKey_setKey (k k2 : String) (v : α) (m : List (String × α)) :
    lookupKey k2 (setKey k v m) = if k2 = k then some v else lookupKey k2 m := by
  induction m with
  | nil =>
    by_cases h : k2 = k
    · simp [setKey, lookupKey, h]
    · have h2 : ¬ k = k2 := fun h3 => h h3.symm
      simp [setKey, lookupKey, h, h2]
  | cons e m ih =>
    obtain ⟨k1, v1⟩ := e
    by_cases h1 : k1 = k
    · subst h1
      by_cases h : k2 = k1
      · simp [setKey, lookupKey, h]
      · have h2 : ¬ k1 = k2 := fun h3 => h h3.symm
        simp [setKey, lookupKey, h, h2]
    · by_cases h : k1 = k2
      · subst h
        simp [setKey, lookupKey, h1]
      · simp [setKey, lookupKey, h1, h, ih]

theorem setKey_of_not_mem {k : String} (v : α) {m : List (String × α)} (h : k ∉ keys m) :
    setKey k v m = m ++ [(k, v)] := by
  induction m with
  | nil => rfl
  | cons e m ih =>
    obtain ⟨k1, v1⟩ := e
    simp only [keys, List.map_cons, List.mem_cons, not_or] at h
    have h1 : ¬ k1 = k := fun h3 => h.1 h3.symm
    simp only [setKey, h1, if_false, List.cons_append]
    rw [ih h.2]

theorem keys_setKey_of_mem {k : String} (v : α) {m : List (String × α)} (h : k ∈ keys m) :
    keys (setKey k v m) = keys m := by
  induction m with
  | nil => simp [keys] at h
  | cons e m ih =>
    obtain ⟨k1, v1⟩ := e
    by_cases h1 : k1 = k
    · simp [setKey, keys, h1]
    · have h2 : k ∈ keys m := by
        simp only [keys, List.map_cons, List.mem_cons] at h
        rcases h with h | h
        · exact absurd h.symm h1
        · exact h
      have := ih h2
      simp only [keys] at this
      simp [setKey, keys, h1, this]

theorem mem_keys_setKey (k k2 : String) (v : α) (m : List (String × α)) :
    k2 ∈ keys (setKey k v m) ↔ k2 = k ∨ k2 ∈ keys m := by
  rw [← lookupKey_isSome_iff, ← lookupKey_isSome_iff, lookupKey_setKey]
  by_cases h : k2 = k <;> simp [h]

theorem nodup_keys_setKey (k : String) (v : α) {m : List (String × α)}
    (h : (keys m).Nodup) : (keys (setKey k v m)).Nodup := by
  by_cases hk : k ∈ keys m
  · rw [keys_setKey_of_mem v hk]
    exact h
  · rw [setKey_of_not_mem v hk]
    simp only [keys, List.map_append, List.map_cons, List.map_nil]
    rw [List.nodup_append]
    refine ⟨h, List.nodup_singleton k, ?_⟩
    intro a ha hb
    simp only [List.mem_singleton] at hb
    subst hb
    exact hk ha

theorem mem_setKey {k : String} {v : α} {m : List (String × α)} {e : String × α}
    (h : e ∈ setKey k v m) : e ∈ m ∨ e = (k, v) := by
  induction m with
  | nil =>
    simp only [setKey, List.mem_singleton] at h
    exact Or.inr h
  | cons e1 m ih =>
    obtain ⟨k1, v1⟩ := e1
    by_cases h1 : k1 = k
    · simp only [setKey, h1, if_true, List.mem_cons] at h
      rcases h with h | h
      · exact Or.inr h
      · exact Or.inl (List.mem_cons_of_mem _ h)
    · simp only [setKey, h1, if_false, List.mem_cons] at h
      rcases h with h | h
      · exact Or.inl (h ▸ List.mem_cons_self _ _)
      · rcases ih h with h2 | h2
        · exact Or.inl (List.mem_cons_of_mem _ h2)
        · exact Or.inr h2

theorem length_setKey_of_mem {k : String} (v : α) {m : List (String × α)} (h : k ∈ keys m) :
    (setKey k v m).length = m.length := by
  have := congrArg List.length (keys_setKey_of_mem v h)
  simpa [keys] using this

theorem deleteKey_nil (k : String) : deleteKey k ([] : List (String × α)) = [] := rfl

theorem deleteKey_cons_eq (k : String) (v : α) (m : List (String × α)) :
    deleteKey k ((k, v) :: m) = deleteKey k m := by
  simp [deleteKey, List.filter_cons]

theorem deleteKey_cons_ne {k k1 : String} (v : α) (m : List (String × α)) (h : k1 ≠ k) :
    deleteKey k ((k1, v) :: m) = (k1, v) :: deleteKey k m := by
  simp [deleteKey, List.filter_cons, h]

theorem mem_deleteKey {k : String} {m : List (String × α)} {e : String × α} :
    e ∈ deleteKey k m ↔ e ∈ m ∧ e.1 ≠ k := by
  simp [deleteKey]

theorem mem_keys_deleteKey (k k2 : String) (m : List (String × α)) :
    k2 ∈ keys (deleteKey k m) ↔ k2 ∈ keys m ∧ k2 ≠ k := by
  induction m with
  | nil => simp [deleteKey_nil, keys]
  | cons e m ih =>
    obtain ⟨k1, v1⟩ := e
    by_cases h : k1 = k
    · subst h
      rw [deleteKey_cons_eq, ih]
      simp only [keys, List.map_cons, List.mem_cons]
      constructor
      · rintro ⟨h1, h2⟩
        exact ⟨Or.inr h1, h2⟩
      · rintro ⟨h1 | h1, h2⟩
        · exact absurd h1 h2
        · exact ⟨h1, h2⟩
    · rw [deleteKey_cons_ne v1 m h]
      simp only [keys, List.map_cons, List.mem_cons] at ih ⊢
      rw [ih]
      constructor
      · rintro (h1 | ⟨h1, h2⟩)
        · exact ⟨Or.inl h1, h1 ▸ h⟩
        · exact ⟨Or.inr h1, h2⟩
      · rintro ⟨h1 | h1, h2⟩
        · exact Or.inl h1
        · exact Or.inr ⟨h1, h2⟩

theorem sublist_keys_deleteKey (k : String) (m : List (String × α)) :
    (keys (deleteKey k m)).Sublist (keys m) :=
  (List.filter_sublist m).map Prod.fst

theorem nodup_keys_deleteKey (k : String) {m : List (String × α)}
    (h : (keys m).Nodup) : (keys (deleteKey k m)).Nodup :=
  h.sublist (sublist_keys_deleteKey k m)

theorem lookupKey_deleteKey (k k2 : String) (m : List (String × α)) :
    lookupKey k2 (deleteKey k m) = if k2 = k then none else lookupKey k2 m := by
  induction m with
  | nil => simp [deleteKey_nil, lookupKey]
  | cons e m ih =>
    obtain ⟨k1, v1⟩ := e
    by_cases h1 : k1 = k
    · subst h1
      rw [deleteKey_cons_eq, ih]
      by_cases h : k2 = k1
      · simp [h]
      · have h2 : ¬ k1 = k2 := fun h3 => h h3.symm
        simp [lookupKey, h, h2]
    · rw [deleteKey_cons_ne v1 m h1]
      by_cases h : k1 = k2
      · subst h
        simp [lookupKey, h1]
      · simp [lookupKey, h, ih]

theorem deleteKey_of_not_mem {k : String} {m : List (String × α)} (h : k ∉ keys m) :
    deleteKey k m = m := by
  unfold deleteKey
  rw [List.filter_eq_self]
  intro e he
  simp only [decide_eq_true_eq]
  intro h2
  exact h (h2 ▸ List.mem_map_of_mem Prod.fst he)

theorem perm_deleteKey {k : String} {v : α} {m : List (String × α)}
    (hn : (keys m).Nodup) (h : lookupKey k m = some v) :
    m.Perm ((k, v) :: deleteKey k m) := by
  induction m with
  | nil => simp [lookupKey] at h
  | cons e m ih =>
    obtain ⟨k1, v1⟩ := e
    simp only [keys, List.map_cons, List.nodup_cons] at hn
    by_cases hk : k1 = k
    · subst hk
      simp only [lookupKey, if_true, Option.some.injEq] at h
      subst h
      rw [deleteKey_cons_eq, deleteKey_of_not_mem hn.1]
    · simp only [lookupKey, hk, if_false] at h
      rw [deleteKey_cons_ne v1 m hk]
      exact ((ih hn.2 h).cons (k1, v1)).trans (List.Perm.swap _ _ _)

end Maps

section Arrays
variable {α : Type}

theorem length_modifyAt (f : α → α) (n : Nat) (l : List α) :
    (modifyAt f n l).length = l.length := by
  induction l generalizing n with
  | nil => cases n <;> rfl
  | cons a l ih =>
    cases n with
    | zero => rfl
    | succ n => simp [modifyAt, ih]

theorem getElem?_modifyAt (f : α → α) (n i : Nat) (l : List α) :
    (modifyAt f n l)[i]? = if i = n then l[i]?.map f else l[i]? := by
  induction l generalizing n i with
  | nil => cases n <;> simp [modifyAt]
  | cons a l ih =>
    cases n with
    | zero =>
      cases i with
      | zero => simp [modifyAt]
      | succ i => simp [modifyAt]
    | succ n =>
      cases i with
      | zero => simp [modifyAt]
      | succ i => simp [modifyAt, ih]

theorem sum_counts_modifyAt (f : PollOption → PollOption) (n : Nat) (l : List PollOption)
    (o : PollOption) (h : l[n]? = some o) :
    ((modifyAt f n l).map PollOption.count).sum =
      (l.map PollOption.count).sum + ((f o).count - o.count) := by
  induction l generalizing n with
  | nil => simp at h
  | cons a l ih =>
    cases n with
    | zero =>
      simp only [List.getElem?_cons_zero, Option.some.injEq] at h
      subst h
      simp only [modifyAt, List.map_cons, List.sum_cons]
      omega
    | succ n =>
      simp only [List.getElem?_cons_succ] at h
      simp only [modifyAt, List.map_cons, List.sum_cons, ih n h]
      omega

end Arrays

/-! ## Lemmas on the poll store -/

theorem getActivePoll_split {s : State} {p : Poll} (h : getActivePoll s = some p) :
    p.status = Status.active ∧
    ∃ l1 l2 k, s.polls = l1 ++ (k, p) :: l2 ∧ (∀ e ∈ l1, e.2.status ≠ Status.active) ∧
      ∀ f, mutateActive f s.polls = l1 ++ (k, f p) :: l2 := by
  obtain ⟨polls, reg⟩ := s
  simp only [getActivePoll] at h
  induction polls with
  | nil => simp at h
  | cons e m ih =>
    obtain ⟨k1, p1⟩ := e
    by_cases hs : p1.status = Status.active
    · simp only [List.find?_cons, hs, decide_True, Option.map_some', Option.some.injEq] at h
      subst h
      refine ⟨hs, [], m, k1, rfl, by simp, ?_⟩
      intro f
      simp [mutateActive, hs]
    · simp only [List.find?_cons, hs, decide_False] at h
      obtain ⟨h1, l1, l2, k, h2, h3, h4⟩ := ih h
      refine ⟨h1, (k1, p1) :: l1, l2, k, ?_, ?_, ?_⟩
      · simp only at h2
        simp [h2]
      · intro e he
        rcases List.mem_cons.mp he with he | he
        · rw [he]
          exact hs
        · exact h3 e he
      · intro f
        simp only at h4
        simp [mutateActive, hs, h4]

theorem getActivePoll_eq_none_iff (s : State) :
    getActivePoll s = none ↔ ∀ e ∈ s.polls, e.2.status ≠ Status.active := by
  simp [getActivePoll]

theorem getActivePoll_isSome_iff (s : State) :
    (getActivePoll s).isSome = true ↔ ∃ e ∈ s.polls, e.2.status = Status.active := by
  rw [← not_iff_not]
  have := getActivePoll_eq_none_iff s
  cases h : getActivePoll s with
  | none =>
    rw [h] at this
    simp only [Option.isSome_none, Bool.false_eq_true, not_false_eq_true, not_exists, not_and,
      true_iff]
    exact this.mp rfl
  | some p =>
    rw [h] at this
    simp only [Option.isSome_some, not_true_eq_false, not_exists, not_and, false_iff]
    intro h2
    exact absurd (this.mpr h2) (by simp)

theorem activeCount_eq_zero_of_none {s : State} (h : getActivePoll s = none) :
    activeCount s = 0 := by
  rw [getActivePoll_eq_none_iff] at h
  simp only [activeCount, activeIn, List.length_eq_zero, List.filter_eq_nil_iff,
    decide_eq_true_eq]
  exact h

theorem lookupKey_split {α : Type} {k : String} {v : α} {m : List (String × α)}
    (h : lookupKey k m = some v) :
    ∃ l1 l2, m = l1 ++ (k, v) :: l2 ∧ k ∉ keys l1 ∧
      ∀ w, setKey k w m = l1 ++ (k, w) :: l2 := by
  induction m with
  | nil => simp [lookupKey] at h
  | cons e m ih =>
    obtain ⟨k1, v1⟩ := e
    by_cases hk : k1 = k
    · subst hk
      simp only [lookupKey, if_true, Option.some.injEq] at h
      subst h
      exact ⟨[], m, rfl, by simp [keys], fun w => by simp [setKey]⟩
    · simp only [lookupKey, hk, if_false] at h
      obtain ⟨l1, l2, h1, h2, h3⟩ := ih h
      refine ⟨(k1, v1) :: l1, l2, by simp [h1], ?_, ?_⟩
      · simp only [keys, List.map_cons, List.mem_cons, not_or]
        exact ⟨fun h4 => hk h4.symm, h2⟩
      · intro w
        simp [setKey, hk, h3]

theorem activeIn_append (l1 l2 : List (PollId × Poll)) :
    activeIn (l1 ++ l2) = activeIn l1 + activeIn l2 := by
  simp [activeIn, List.filter_append]

theorem activeIn_cons (k : PollId) (p : Poll) (l : List (PollId × Poll)) :
    activeIn ((k, p) :: l) = (if p.status = Status.active then 1 else 0) + activeIn l := by
  by_cases h : p.status = Status.active
  · simp [activeIn, List.filter_cons, h]
    omega
  · simp [activeIn, List.filter_cons, h]

theorem activeIn_replace (l1 l2 : List (PollId × Poll)) (k : PollId) (p q : Poll)
    (h : q.status = Status.active → p.status = Status.active) :
    activeIn (l1 ++ (k, q) :: l2) ≤ activeIn (l1 ++ (k, p) :: l2) := by
  simp only [activeIn_append, activeIn_cons]
  by_cases hq : q.status = Status.active
  · simp [hq, h hq]
  · by_cases hp : p.status = Status.active
    · simp [hq, hp]
    · simp [hq, hp]

theorem activeIn_setKey_le (k : PollId) (v : Poll) (l : List (PollId × Poll)) :
    activeIn (setKey k v l) ≤ activeIn l + 1 := by
  induction l with
  | nil =>
    simp only [setKey, activeIn_cons]
    split <;> simp [activeIn]
  | cons e l ih =>
    obtain ⟨k1, p1⟩ := e
    by_cases hk : k1 = k
    · simp only [setKey, hk, if_true, activeIn_cons]
      split <;> split <;> omega
    · simp only [setKey, hk, if_false, activeIn_cons]
      omega

theorem activeIn_deleteKey_le (k : PollId) (l : List (PollId × Poll)) :
    activeIn (deleteKey k l) ≤ activeIn l :=
  ((List.filter_sublist l).filter _).length_le

/-! ## Preservation of the consistency of a poll -/

theorem PollInv.join {p : Poll} (h : PollInv p) (id : SocketId) (st : Student) :
    PollInv { p with students := setKey id st p.students } where
  responsesNodup := h.responsesNodup
  studentsNodup := nodup_keys_setKey id st h.studentsNodup
  respondents := fun k hk => (mem_keys_setKey id k st p.students).mpr (Or.inr (h.respondents k hk))
  inRange := h.inRange
  tally := h.tally
  total := h.total
  timerCleared := h.timerCleared

theorem PollInv.finish {p : Poll} (h : PollInv p) (t : Option Int) (ht : t = none) :
    PollInv { p with status := Status.finished, timer := t } where
  responsesNodup := h.responsesNodup
  studentsNodup := h.studentsNodup
  respondents := h.respondents
  inRange := h.inRange
  tally := h.tally
  total := h.total
  timerCleared := fun _ => ht

theorem toNat_eq_iff {k : Int} (h0 : 0 ≤ k) (i : Nat) : k = (i : Int) ↔ i = k.toNat := by
  omega

theorem votesIn_append (r1 r2 : List (SocketId × Int)) (i : Int) :
    votesIn (r1 ++ r2) i = votesIn r1 i + votesIn r2 i := by
  simp [votesIn, List.filter_append]

theorem votesIn_singleton (id : SocketId) (k i : Int) :
    votesIn [(id, k)] i = if k = i then 1 else 0 := by
  by_cases h : k = i <;> simp [votesIn, List.filter_cons, h]

theorem votesIn_of_lookup {r : List (SocketId × Int)} (hn : (keys r).Nodup) {id : SocketId}
    {idx : Int} (h : lookupKey id r = some idx) (i : Int) :
    votesIn r i = (if idx = i then 1 else 0) + votesIn (deleteKey id r) i := by
  have hp := perm_deleteKey hn h
  have := (hp.filter (fun e => decide (e.2 = i))).length_eq
  have h2 : votesIn r i = votesIn [(id, idx)] i + votesIn (deleteKey id r) i := by
    rw [← votesIn_append]
    exact this
  rw [h2, votesIn_singleton]

theorem PollInv.vote {p : Poll} (h : PollInv p) {id : SocketId} {k : Int}
    (hm : id ∈ keys p.students) (hr : lookupKey id p.responses = none)
    (h0 : 0 ≤ k) (h1 : k < (p.options.length : Int)) :
    PollInv { p with
      responses := setKey id k p.responses
      options := modifyAt (fun o => { o with count := o.count + 1 }) k.toNat p.options } := by
  have hnot : id ∉ keys p.responses := (lookupKey_eq_none_iff id p.responses).mp hr
  have hset : setKey id k p.responses = p.responses ++ [(id, k)] := setKey_of_not_mem k hnot
  have hlt : k.toNat < p.options.length := by omega
  refine ⟨nodup_keys_setKey id k h.responsesNodup, h.studentsNodup, ?_, ?_, ?_, ?_,
    h.timerCleared⟩
  · intro a ha
    rcases (mem_keys_setKey id a k p.responses).mp ha with ha | ha
    · rw [ha]
      exact hm
    · exact h.respondents a ha
  · intro e he
    simp only [length_modifyAt]
    rcases mem_setKey he with he | he
    · exact h.inRange e he
    · rw [he]
      exact ⟨h0, h1⟩
  · intro i o ho
    simp only [getElem?_modifyAt] at ho
    simp only [votesFor, hset, votesIn_append, votesIn_singleton]
    by_cases hi : i = k.toNat
    · have hk : k = (i : Int) := (toNat_eq_iff h0 i).mpr hi
      simp only [hi, if_true] at ho
      cases ho0 : p.options[k.toNat]? with
      | none => simp [ho0] at ho
      | some o0 =>
        simp only [ho0, Option.map_some', Option.some.injEq] at ho
        have := h.tally k.toNat o0 ho0
        simp only [votesFor] at this
        rw [← ho, if_pos hk]
        rw [← hi] at this
        show o0.count + 1 = _
        rw [this]
        push_cast
        rfl
    · have hk : ¬ k = (i : Int) := fun h2 => hi ((toNat_eq_iff h0 i).mp h2)
      simp only [hi, if_false] at ho
      have := h.tally i o ho
      simp only [votesFor] at this
      rw [if_neg hk, this]
      rfl
  · obtain ⟨o0, ho0⟩ : ∃ o0, p.options[k.toNat]? = some o0 := by
      rw [List.getElem?_eq_getElem hlt]
      exact ⟨_, rfl⟩
    have hsum := sum_counts_modifyAt (fun o => { o with count := o.count + 1 }) k.toNat
      p.options o0 ho0
    have htot := h.total
    simp only [counts] at htot ⊢
    rw [hsum, htot, hset]
    simp only [keys, List.map_append, List.length_append, List.length_map, List.length_singleton,
      List.map_cons, List.map_nil]
    push_cast
    omega

theorem optionAt_eq_some {options : List PollOption} {idx : Int} {o : PollOption}
    (h : optionAt options idx = some o) : 0 ≤ idx ∧ options[idx.toNat]? = some o := by
  unfold optionAt at h
  by_cases h0 : idx < 0
  · simp [h0] at h
  · simp only [h0, if_false] at h
    exact ⟨by omega, h⟩

theorem PollInv.withdraw {p q : Poll} (h : PollInv p) {id : SocketId}
    (hw : withdraw p id = some q) : PollInv q := by
  unfold Polling.withdraw at hw
  cases hr : lookupKey id p.responses with
  | none =>
    simp only [hr, Option.some.injEq] at hw
    subst hw
    have hnot : id ∉ keys p.responses := (lookupKey_eq_none_iff id p.responses).mp hr
    refine ⟨h.responsesNodup, nodup_keys_deleteKey id h.studentsNodup, ?_, h.inRange, h.tally,
      h.total, h.timerCleared⟩
    intro a ha
    refine (mem_keys_deleteKey id a p.students).mpr ⟨h.respondents a ha, ?_⟩
    intro h2
    exact hnot (h2 ▸ ha)
  | some idx =>
    simp only [hr] at hw
    cases ho : optionAt p.options idx with
    | none => simp [ho] at hw
    | some o =>
      simp only [ho, Option.some.injEq] at hw
      subst hw
      obtain ⟨h0, hget⟩ := optionAt_eq_some ho
      have hcount := h.tally idx.toNat o hget
      have hidx : ((idx.toNat : Nat) : Int) = idx := by omega
      have hv := votesIn_of_lookup h.responsesNodup hr
      have hc : o.count = 1 + (votesIn (deleteKey id p.responses) idx : Int) := by
        rw [hcount, votesFor, hv, hidx, if_pos rfl]
        push_cast
        rfl
      have hmax : max 0 (o.count - 1) = o.count - 1 := by omega
      refine ⟨nodup_keys_deleteKey id h.responsesNodup, nodup_keys_deleteKey id h.studentsNodup,
        ?_, ?_, ?_, ?_, h.timerCleared⟩
      · intro a ha
        rw [mem_keys_deleteKey] at ha ⊢
        exact ⟨h.respondents a ha.1, ha.2⟩
      · intro e he
        simp only [setCount, length_modifyAt]
        exact h.inRange e (mem_deleteKey.mp he).1
      · intro i o1 ho1
        simp only [setCount, getElem?_modifyAt] at ho1
        simp only [votesFor]
        by_cases hi : i = idx.toNat
        · simp only [hi, if_true, hget, Option.map_some', Option.some.injEq] at ho1
          rw [← ho1, hi, hidx]
          show max 0 (o.count - 1) = _
          rw [hmax, hc]
          omega
        · have hk : ¬ idx = (i : Int) := fun h2 => hi ((toNat_eq_iff h0 i).mp h2)
          simp only [hi, if_false] at ho1
          have := h.tally i o1 ho1
          rw [this, votesFor, hv, if_neg hk]
          simp
      · have hsum := sum_counts_modifyAt (fun o1 => { o1 with count := max 0 (o.count - 1) })
          idx.toNat p.options o hget
        have htot := h.total
        have hlen := (perm_deleteKey h.responsesNodup hr).length_eq
        simp only [counts, setCount] at htot ⊢
        rw [hsum, htot]
        simp only [keys, List.length_map, List.length_cons] at hlen ⊢
        rw [hlen]
        show _ + (max 0 (o.count - 1) - o.count) = _
        rw [hmax]
        push_cast
        omega

theorem withdraw_frame {p q : Poll} {id : SocketId} (hw : withdraw p id = some q) :
    q.id = p.id ∧ q.status = p.status ∧ q.timer = p.timer := by
  unfold Polling.withdraw at hw
  cases hr : lookupKey id p.responses with
  | none =>
    simp only [hr, Option.some.injEq] at hw
    subst hw
    exact ⟨rfl, rfl, rfl⟩
  | some idx =>
    simp only [hr] at hw
    cases ho : optionAt p.options idx with
    | none => simp [ho] at hw
    | some o =>
      simp only [ho, Option.some.injEq] at hw
      subst hw
      exact ⟨rfl, rfl, rfl⟩

/-! ## Preservation of the consistency of the state -/

theorem Inv.replace {l1 l2 : List (PollId × Poll)} {k : PollId} {p q : Poll}
    {reg reg1 : List (SocketId × Student)}
    (h : Inv { polls := l1 ++ (k, p) :: l2, connectedStudents := reg })
    (hq : PollInv q) (hid : q.id = p.id) (hst : q.status = Status.active → p.status = Status.active)
    (hreg : (keys reg1).Nodup) :
    Inv { polls := l1 ++ (k, q) :: l2, connectedStudents := reg1 } := by
  have hmem : ∀ e, e ∈ l1 ++ (k, q) :: l2 → e = (k, q) ∨ e ∈ l1 ++ (k, p) :: l2 := by
    intro e he
    simp only [List.mem_append, List.mem_cons] at he ⊢
    tauto
  refine ⟨?_, ?_, ?_, hreg, ?_⟩
  · have := h.pollKeys
    simpa [keys] using this
  · intro e he
    rcases hmem e he with he | he
    · rw [he]
      have := h.keyIsId (k, p) (by simp)
      simp only at this ⊢
      rw [hid]
      exact this
    · exact h.keyIsId e he
  · exact le_trans (activeIn_replace l1 l2 k p q hst) h.oneActive
  · intro e he
    rcases hmem e he with he | he
    · rw [he]
      exact hq
    · exact h.polls e he

theorem Inv.mutate {s : State} (h : Inv s) {p q : Poll} (hp : getActivePoll s = some p)
    (hq : PollInv q) (hid : q.id = p.id) {reg1 : List (SocketId × Student)}
    (hreg : (keys reg1).Nodup) :
    Inv { polls := mutateActive (fun _ => q) s.polls, connectedStudents := reg1 } := by
  obtain ⟨hact, l1, l2, k, hsplit, -, hmut⟩ := getActivePoll_split hp
  rw [hmut]
  obtain ⟨polls, reg⟩ := s
  simp only at hsplit
  subst hsplit
  exact h.replace hq hid (fun _ => hact) hreg

theorem Inv.registry {s : State} (h : Inv s) {reg1 : List (SocketId × Student)}
    (hreg : (keys reg1).Nodup) : Inv { s with connectedStudents := reg1 } :=
  ⟨h.pollKeys, h.keyIsId, h.oneActive, hreg, h.polls⟩

theorem Inv.endPoll {s : State} (h : Inv s) (pollId : PollId) : Inv (endPoll s pollId).state := by
  unfold Polling.endPoll
  cases hl : lookupKey pollId s.polls with
  | none => exact h
  | some poll =>
    by_cases hf : poll.status = Status.finished
    · simp only [hf, if_true]
      exact h
    · simp only [hf, if_false]
      obtain ⟨l1, l2, hsplit, -, hset⟩ := lookupKey_split hl
      rw [hset]
      obtain ⟨polls, reg⟩ := s
      simp only at hsplit
      subst hsplit
      have hpoll : PollInv poll := h.polls (pollId, poll) (by simp)
      refine h.replace (hpoll.finish _ ?_) rfl (fun hc => ?_) h.registryNodup
      · cases poll.timer <;> rfl
      · simp at hc

theorem Inv.cleanup {s : State} (h : Inv s) (pollId : PollId) : Inv (cleanup s pollId).state := by
  have hmem : ∀ e, e ∈ deleteKey pollId s.polls → e ∈ s.polls := fun e he =>
    (mem_deleteKey.mp he).1
  refine ⟨nodup_keys_deleteKey pollId h.pollKeys, fun e he => h.keyIsId e (hmem e he), ?_,
    h.registryNodup, fun e he => h.polls e (hmem e he)⟩
  exact le_trans (activeIn_deleteKey_le pollId s.polls) h.oneActive

theorem PollInv.created (question : String) (validOptions : List String) (timeLimit : Int)
    (teacherSocketId : Option SocketId) (id : PollId) (now : String)
    {reg : List (SocketId × Student)} (hreg : (keys reg).Nodup) :
    PollInv
      { id := id
        question := trim question
        options := validOptions.map (fun opt => { text := trim opt, count := 0 })
        responses := []
        students := reg
        status := Status.active
        timeLimit := timeLimit
        teacherSocketId := teacherSocketId
        timer := some (timeLimit * 1000)
        createdAt := now } := by
  refine ⟨by simp [keys], hreg, by simp [keys], by simp, ?_, ?_, by simp⟩
  · intro i o ho
    simp only [List.getElem?_map] at ho
    cases hv : validOptions[i]? with
    | none => simp [hv] at ho
    | some opt =>
      simp only [hv, Option.map_some', Option.some.injEq] at ho
      rw [← ho]
      simp [votesFor, votesIn]
  · simp only [counts, keys, List.map_map, List.map_nil, List.length_nil]
    induction validOptions with
    | nil => rfl
    | cons a l ih => simpa using ih

theorem Inv.createPoll {s : State} (h : Inv s) (question : String) (options : List String)
    (timeLimit : Int) (teacherSocketId : Option SocketId) (id : PollId) (now : String) :
    Inv (createPoll s question options timeLimit teacherSocketId id now).state := by
  unfold Polling.createPoll
  split
  · exact h
  · split
    · exact h
    · simp only
      split
      · exact h
      · split
        · exact h
        · split
          · exact h
          · rename_i hact
            have hnone : getActivePoll s = none := by
              cases hg : getActivePoll s with
              | none => rfl
              | some p => simp [hg] at hact
            have hzero := activeCount_eq_zero_of_none hnone
            have hnew := PollInv.created question
              (options.filter (fun opt => decide (trim opt ≠ ""))) timeLimit teacherSocketId id now
              h.registryNodup
            refine ⟨nodup_keys_setKey id _ h.pollKeys, ?_, ?_, h.registryNodup, ?_⟩
            · intro e he
              rcases mem_setKey he with he | he
              · exact h.keyIsId e he
              · rw [he]
            · refine le_trans (activeIn_setKey_le id _ s.polls) ?_
              have : activeIn s.polls = 0 := hzero
              omega
            · intro e he
              rcases mem_setKey he with he | he
              · exact h.polls e he
              · rw [he]
                exact hnew

theorem Inv.activePoll {s : State} (h : Inv s) {p : Poll} (hp : getActivePoll s = some p) :
    PollInv p := by
  obtain ⟨-, l1, l2, k, hsplit, -, -⟩ := getActivePoll_split hp
  exact h.polls (k, p) (by simp [hsplit])

theorem Inv.addStudent {s : State} (h : Inv s) (socketId : SocketId) (name now : String) :
    Inv (addStudent s socketId name now).state := by
  unfold Polling.addStudent
  split
  · exact h
  · simp only
    cases hp : getActivePoll s with
    | none => exact h.registry (nodup_keys_setKey _ _ h.registryNodup)
    | some poll =>
      exact h.mutate hp ((h.activePoll hp).join _ _) rfl (nodup_keys_setKey _ _ h.registryNodup)

theorem autoJoin_spec {s : State} (h : Inv s) {poll : Poll} (hp : PollInv poll)
    (socketId : SocketId) (now : String) :
    PollInv (autoJoin s poll socketId now).1 ∧
    (autoJoin s poll socketId now).1.id = poll.id ∧
    (autoJoin s poll socketId now).1.status = poll.status ∧
    (autoJoin s poll socketId now).1.timer = poll.timer ∧
    (autoJoin s poll socketId now).1.responses = poll.responses ∧
    (autoJoin s poll socketId now).1.options = poll.options ∧
    socketId ∈ keys (autoJoin s poll socketId now).1.students ∧
    (keys (autoJoin s poll socketId now).2.1).Nodup := by
  unfold autoJoin
  cases h1 : lookupKey socketId poll.students with
  | none =>
    cases h2 : lookupKey socketId s.connectedStudents with
    | none =>
      exact ⟨hp.join _ _, rfl, rfl, rfl, rfl, rfl,
        (mem_keys_setKey _ _ _ _).mpr (Or.inl rfl), nodup_keys_setKey _ _ h.registryNodup⟩
    | some reg =>
      exact ⟨hp.join _ _, rfl, rfl, rfl, rfl, rfl,
        (mem_keys_setKey _ _ _ _).mpr (Or.inl rfl), h.registryNodup⟩
  | some st =>
    refine ⟨hp, rfl, rfl, rfl, rfl, rfl, ?_, h.registryNodup⟩
    rw [← lookupKey_isSome_iff, h1]
    rfl

theorem Inv.submitAnswer {s : State} (h : Inv s) (socketId : SocketId) (optionIndex : Int)
    (now : String) : Inv (submitAnswer s socketId optionIndex now).state := by
  unfold Polling.submitAnswer
  cases hp : getActivePoll s with
  | none => exact h
  | some poll =>
    simp only
    split
    · exact h
    · split
      · exact h
      · rename_i hresp
        have hr : lookupKey socketId poll.responses = none := by
          cases hl : lookupKey socketId poll.responses with
          | none => rfl
          | some v => simp [hl] at hresp
        obtain ⟨hj, hid, -, -, hjr, -, hmem, hreg⟩ :=
          autoJoin_spec h (h.activePoll hp) socketId now
        split
        · exact h.mutate hp hj hid hreg
        · rename_i hrange
          have hvote : PollInv (recordVote (autoJoin s poll socketId now).1 socketId optionIndex) :=
            hj.vote hmem (hjr ▸ hr) (by omega) (by omega)
          have hs2 := h.mutate hp hvote (q := recordVote (autoJoin s poll socketId now).1 socketId
            optionIndex) hid hreg
          split
          · exact hs2.endPoll _
          · exact hs2

theorem Inv.remove {s : State} (h : Inv s) {poll q : Poll} (hp : getActivePoll s = some poll)
    {id : SocketId} (hw : withdraw poll id = some q) :
    Inv { polls := mutateActive (fun _ => q) s.polls,
          connectedStudents := deleteKey id s.connectedStudents } :=
  h.mutate hp ((h.activePoll hp).withdraw hw) (withdraw_frame hw).1
    (nodup_keys_deleteKey id h.registryNodup)

theorem Inv.removeStudent {s : State} (h : Inv s) (studentId : SocketId) (socketFound : Bool) :
    Inv (removeStudent s studentId socketFound).state := by
  unfold Polling.removeStudent
  have hreg := h.registry (nodup_keys_deleteKey studentId h.registryNodup)
  cases hp : getActivePoll s with
  | none => exact hreg
  | some poll =>
    simp only
    split
    · cases hw : withdraw poll studentId with
      | none => exact hreg
      | some q => exact h.remove hp hw
    · exact hreg

theorem Inv.handleDisconnect {s : State} (h : Inv s) (socketId : SocketId) :
    Inv (handleDisconnect s socketId).state := by
  unfold Polling.handleDisconnect
  have hreg := h.registry (nodup_keys_deleteKey socketId h.registryNodup)
  cases hp : getActivePoll s with
  | none => exact hreg
  | some poll =>
    simp only
    split
    · cases hw : withdraw poll socketId with
      | none => exact hreg
      | some q => exact h.remove hp hw
    · exact hreg

theorem Inv.empty : Inv State.empty :=
  ⟨by simp [State.empty, keys], by simp [State.empty], by simp [State.empty, activeCount, activeIn],
    by simp [State.empty, keys], by simp [State.empty]⟩

theorem Inv.run {s : State} (h : Inv s) (op : Op) : Inv (run s op).state := by
  cases op with
  | createPoll q os tl t id now => exact h.createPoll q os tl t id now
  | addStudent id name now => exact h.addStudent id name now
  | submitAnswer id k now => exact h.submitAnswer id k now
  | endPoll id => exact h.endPoll id
  | removeStudent id found => exact h.removeStudent id found
  | handleDisconnect id => exact h.handleDisconnect id
  | cleanup id => exact h.cleanup id

theorem Reachable.inv {s : State} (h : Reachable s) : Inv s := by
  induction h with
  | empty => exact Inv.empty
  | step op _ ih => exact ih.run op

theorem Reachable.runAll {s : State} (h : Reachable s) (ops : List Op) :
    Reachable (runAll s ops) := by
  induction ops generalizing s with
  | nil => exact h
  | cons op rest ih => exact ih (h.step op)

/-! ## The active poll in a consistent store -/

theorem lookupKey_mid {α : Type} (k k0 : String) (v w : α) (l1 l2 : List (String × α))
    (h : k0 ∉ keys l1) :
    lookupKey k (l1 ++ (k0, v) :: l2) =
      if k = k0 then some v else lookupKey k (l1 ++ (k0, w) :: l2) := by
  induction l1 with
  | nil =>
    by_cases hk : k0 = k
    · simp [lookupKey, hk]
    · have hk2 : ¬ k = k0 := fun h2 => hk h2.symm
      simp [lookupKey, hk, hk2]
  | cons e l1 ih =>
    obtain ⟨k1, v1⟩ := e
    simp only [keys, List.map_cons, List.mem_cons, not_or] at h
    by_cases hk : k1 = k
    · have hk2 : ¬ k = k0 := fun h2 => h.1 (by rw [← h2, hk])
      simp [lookupKey, hk, hk2]
    · simp only [List.cons_append, lookupKey, hk, if_false]
      exact ih h.2

theorem eq_of_activeIn_le_one {l : List (PollId × Poll)} (h : activeIn l ≤ 1)
    {e1 e2 : PollId × Poll} (h1 : e1 ∈ l) (h2 : e2 ∈ l)
    (a1 : e1.2.status = Status.active) (a2 : e2.2.status = Status.active) : e1 = e2 := by
  have m1 : e1 ∈ l.filter (fun e => decide (e.2.status = Status.active)) :=
    List.mem_filter.mpr ⟨h1, by simp [a1]⟩
  have m2 : e2 ∈ l.filter (fun e => decide (e.2.status = Status.active)) :=
    List.mem_filter.mpr ⟨h2, by simp [a2]⟩
  unfold activeIn at h
  match hf : l.filter (fun e => decide (e.2.status = Status.active)) with
  | [] =>
    rw [hf] at m1
    simp at m1
  | [a] =>
    rw [hf] at m1 m2
    simp only [List.mem_singleton] at m1 m2
    rw [m1, m2]
  | a :: b :: rest =>
    rw [hf] at h
    simp at h

theorem getActivePoll_mem {s : State} {p : Poll} (h : getActivePoll s = some p) :
    ∃ k, (k, p) ∈ s.polls ∧ p.status = Status.active := by
  obtain ⟨hact, l1, l2, k, hsplit, -, -⟩ := getActivePoll_split h
  exact ⟨k, by simp [hsplit], hact⟩

theorem Inv.lookup_active {s : State} (h : Inv s) {p : Poll} (hp : getActivePoll s = some p) :
    lookupKey p.id s.polls = some p := by
  obtain ⟨k, hmem, -⟩ := getActivePoll_mem hp
  have hk := h.keyIsId (k, p) hmem
  simp only at hk
  rw [← hk]
  exact lookupKey_of_mem h.pollKeys hmem

theorem Inv.active_of_lookup {s : State} (h : Inv s) {k : PollId} {q : Poll}
    (hl : lookupKey k s.polls = some q) (hq : q.status = Status.active) :
    getActivePoll s = some q := by
  have hmem := mem_of_lookupKey hl
  cases hp : getActivePoll s with
  | none =>
    exact absurd hq ((getActivePoll_eq_none_iff s).mp hp (k, q) hmem)
  | some p =>
    obtain ⟨k1, hmem1, hact1⟩ := getActivePoll_mem hp
    have := eq_of_activeIn_le_one h.oneActive hmem1 hmem hact1 hq
    simp only [Prod.mk.injEq] at this
    rw [this.2]

theorem Inv.lookup_mutate {s : State} (h : Inv s) {p : Poll} (hp : getActivePoll s = some p)
    (f : Poll → Poll) (k : PollId) :
    lookupKey k (mutateActive f s.polls) =
      if k = p.id then some (f p) else lookupKey k s.polls := by
  obtain ⟨-, l1, l2, k0, hsplit, -, hmut⟩ := getActivePoll_split hp
  have hk0 : k0 = p.id := h.keyIsId (k0, p) (by simp [hsplit])
  have hnot : k0 ∉ keys l1 := by
    have := h.pollKeys
    rw [hsplit] at this
    simp only [keys, List.map_append, List.map_cons] at this
    have h2 := (List.nodup_append.mp this).2.2
    intro h3
    exact h2 h3 (List.mem_cons_self _ _)
  rw [hmut, hsplit, ← hk0]
  exact lookupKey_mid k k0 (f p) p l1 l2 hnot

theorem keys_mutateActive {s : State} {p : Poll} (hp : getActivePoll s = some p)
    (f : Poll → Poll) : keys (mutateActive f s.polls) = keys s.polls := by
  obtain ⟨-, l1, l2, k0, hsplit, -, hmut⟩ := getActivePoll_split hp
  rw [hmut, hsplit]
  simp [keys]

theorem getActivePoll_mutate {s : State} {p q : Poll} (hp : getActivePoll s = some p)
    (hq : q.status = Status.active) (reg : List (SocketId × Student)) :
    getActivePoll { polls := mutateActive (fun _ => q) s.polls, connectedStudents := reg } =
      some q := by
  obtain ⟨-, l1, l2, k0, -, hl1, hmut⟩ := getActivePoll_split hp
  have hnone : l1.find? (fun e => decide (e.2.status = Status.active)) = none := by
    rw [List.find?_eq_none]
    intro e he
    simpa using hl1 e he
  simp only [getActivePoll, hmut, List.find?_append, hnone, Option.none_or,
    List.find?_cons, hq, decide_True, Option.map_some']

theorem PollInv.answered_le {p : Poll} (h : PollInv p) :
    (keys p.responses).length ≤ (keys p.students).length :=
  (List.subperm_of_subset h.responsesNodup (fun k hk => h.respondents k hk)).length_le

/-! ## What `submitAnswer` does -/

theorem submitAnswer_invalid {s : State} {poll : Poll} (hp : getActivePoll s = some poll)
    {p : SocketId} (hr : lookupKey p poll.responses = none) {k : Int} (now : String)
    (hk : k < 0 ∨ k ≥ ((autoJoin s poll p now).1.options.length : Int)) :
    submitAnswer s p k now =
      { state := { polls := mutateActive (fun _ => (autoJoin s poll p now).1) s.polls
                   connectedStudents := (autoJoin s poll p now).2.1 }
        events := (autoJoin s poll p now).2.2
        error := some "Invalid option" } := by
  have hact : poll.status = Status.active := (getActivePoll_split hp).1
  simp only [submitAnswer, hp, hact, hr, hk, ne_eq, not_true_eq_false, Option.isSome_none,
    Bool.false_eq_true, if_true, if_false]

theorem submitAnswer_valid {s : State} {poll : Poll} (hp : getActivePoll s = some poll)
    {p : SocketId} (hr : lookupKey p poll.responses = none) {k : Int} (now : String)
    (hk : ¬ (k < 0 ∨ k ≥ ((autoJoin s poll p now).1.options.length : Int))) :
    submitAnswer s p k now =
      if (keys (recordVote (autoJoin s poll p now).1 p k).students).length > 0 ∧
          (keys (recordVote (autoJoin s poll p now).1 p k).responses).length ≥
            (keys (recordVote (autoJoin s poll p now).1 p k).students).length then
        { state := (endPoll
            { polls := mutateActive (fun _ => recordVote (autoJoin s poll p now).1 p k) s.polls
              connectedStudents := (autoJoin s poll p now).2.1 }
            (recordVote (autoJoin s poll p now).1 p k).id).state
          events := ((autoJoin s poll p now).2.2 ++
              [pollUpdate (recordVote (autoJoin s poll p now).1 p k)]) ++
            (endPoll
              { polls := mutateActive (fun _ => recordVote (autoJoin s poll p now).1 p k) s.polls
                connectedStudents := (autoJoin s poll p now).2.1 }
              (recordVote (autoJoin s poll p now).1 p k).id).events
          error := none }
      else
        { state :=
            { polls := mutateActive (fun _ => recordVote (autoJoin s poll p now).1 p k) s.polls
              connectedStudents := (autoJoin s poll p now).2.1 }
          events := (autoJoin s poll p now).2.2 ++
            [pollUpdate (recordVote (autoJoin s poll p now).1 p k)]
          error := none } := by
  have hact : poll.status = Status.active := (getActivePoll_split hp).1
  simp only [submitAnswer, hp, hact, hr, hk, ne_eq, not_true_eq_false, Option.isSome_none,
    Bool.false_eq_true, if_false]

/-! ## What `endPoll` does -/

theorem endPoll_of_active (s : State) (pollId : PollId) (poll : Poll)
    (hl : lookupKey pollId s.polls = some poll) (hs : poll.status = Status.active) :
    endPoll s pollId =
      { state :=
          { polls :=
              setKey pollId { poll with status := Status.finished, timer := none } s.polls
            connectedStudents := s.connectedStudents }
        events := [Event.pollResults poll.id (counts poll) (poll.options.map PollOption.text)]
        error := none } := by
  have hf : ¬ poll.status = Status.finished := by
    rw [hs]
    decide
  have ht : (if poll.timer.isSome = true then none else poll.timer) = none := by
    cases poll.timer <;> rfl
  simp only [endPoll, hl, hf, if_false, ht]
  rfl

theorem endPoll_of_finished (s : State) (pollId : PollId) (poll : Poll)
    (hl : lookupKey pollId s.polls = some poll) (hs : poll.status = Status.finished) :
    endPoll s pollId = { state := s, events := [], error := none } := by
  simp only [endPoll, hl, hs, if_true]

theorem endPoll_of_missing (s : State) (pollId : PollId)
    (hl : lookupKey pollId s.polls = none) :
    endPoll s pollId = { state := s, events := [], error := none } := by
  simp only [endPoll, hl]

theorem status_cases (st : Status) : st = Status.active ∨ st = Status.finished := by
  cases st
  · exact Or.inl rfl
  · exact Or.inr rfl

/-! ## What `createPoll` does -/

theorem createPoll_error_eq_none_iff (s : State) (question : String) (options : List String)
    (timeLimit : Int) (teacherSocketId : Option SocketId) (id : PollId) (now : String) :
    (createPoll s question options timeLimit teacherSocketId id now).error = none ↔
      (trim question ≠ "" ∧
        2 ≤ (options.filter (fun opt => decide (trim opt ≠ ""))).length ∧
        10 ≤ timeLimit ∧ timeLimit ≤ 3600 ∧ getActivePoll s = none) := by
  have hle := List.length_filter_le (fun opt => decide (trim opt ≠ "")) options
  unfold createPoll
  by_cases hq : trim question = ""
  · simp [hq]
  · by_cases hlen : options.length < 2
    · simp only [hq, hlen, if_true, if_false]
      constructor
      · intro h
        simp at h
      · rintro ⟨-, h2, -⟩
        omega
    · by_cases hval : (options.filter (fun opt => decide (trim opt ≠ ""))).length < 2
      · simp only [hq, hlen, hval, if_true, if_false]
        constructor
        · intro h
          simp at h
        · rintro ⟨-, h2, -⟩
          omega
      · by_cases htl : timeLimit < 10 ∨ timeLimit > 3600
        · simp only [hq, hlen, hval, htl, if_true, if_false]
          constructor
          · intro h
            simp at h
          · rintro ⟨-, -, h3, h4, -⟩
            omega
        · cases hact : getActivePoll s with
          | some p =>
            simp only [hq, hlen, hval, htl, hact, Option.isSome_some, if_true, if_false]
            constructor
            · intro h
              simp at h
            · rintro ⟨-, -, -, -, h5⟩
              simp at h5
          | none =>
            constructor
            · intro _
              exact ⟨hq, by omega, by omega, by omega, rfl⟩
            · intro _
              simp only [hq, hlen, hval, htl, Option.isSome_none, Bool.false_eq_true, if_false]

theorem createPoll_state_of_error (s : State) (question : String) (options : List String)
    (timeLimit : Int) (teacherSocketId : Option SocketId) (id : PollId) (now : String)
    (h : (createPoll s question options timeLimit teacherSocketId id now).error ≠ none) :
    (createPoll s question options timeLimit teacherSocketId id now).state = s ∧
      (createPoll s question options timeLimit teacherSocketId id now).events = [] := by
  by_cases hq : trim question = ""
  · simp only [createPoll, hq, if_true, and_self]
  · by_cases hlen : options.length < 2
    · simp only [createPoll, hq, hlen, if_true, if_false, and_self]
    · by_cases hval : (options.filter (fun opt => decide (trim opt ≠ ""))).length < 2
      · simp only [createPoll, hq, hlen, hval, if_true, if_false, and_self]
      · by_cases htl : timeLimit < 10 ∨ timeLimit > 3600
        · simp only [createPoll, hq, hlen, hval, htl, if_true, if_false, and_self]
        · by_cases hact : (getActivePoll s).isSome = true
          · simp only [createPoll, hq, hlen, hval, htl, hact, if_true, if_false, and_self]
          · exfalso
            apply h
            simp only [createPoll, hq, hlen, hval, htl, hact, Bool.false_eq_true, if_false]

theorem createPoll_success (s : State) (question : String) (options : List String)
    (timeLimit : Int) (teacherSocketId : Option SocketId) (id : PollId) (now : String)
    (hok : (createPoll s question options timeLimit teacherSocketId id now).error = none) :
    createPoll s question options timeLimit teacherSocketId id now =
      { state :=
          { polls := setKey id
              ({ id := id
                 question := trim question
                 options := (options.filter (fun opt => decide (trim opt ≠ ""))).map
                   (fun opt => { text := trim opt, count := 0 })
                 responses := []
                 students := s.connectedStudents
                 status := Status.active
                 timeLimit := timeLimit
                 teacherSocketId := teacherSocketId
                 timer := some (timeLimit * 1000)
                 createdAt := now } : Poll) s.polls
            connectedStudents := s.connectedStudents }
        events := [Event.pollStarted id (trim question)
          ((options.filter (fun opt => decide (trim opt ≠ ""))).map
            (fun opt => (trim opt : String))) timeLimit]
        error := none } := by
  obtain ⟨hq, ho, h10, h3600, hact⟩ :=
    (createPoll_error_eq_none_iff s question options timeLimit teacherSocketId id now).mp hok
  have hlen : ¬ options.length < 2 :=
    not_lt.mpr (le_trans ho (List.length_filter_le _ _))
  have hval : ¬ (options.filter (fun opt => decide (trim opt ≠ ""))).length < 2 := not_lt.mpr ho
  have htl : ¬ (timeLimit < 10 ∨ timeLimit > 3600) := by omega
  simp only [createPoll, hq, hlen, hval, htl, hact, Option.isSome_none, Bool.false_eq_true,
    if_false, List.map_map]
  rfl

theorem createPoll_of_active (s : State) (question : String) (options : List String)
    (timeLimit : Int) (teacherSocketId : Option SocketId) (id : PollId) (now : String)
    (hq : trim question ≠ "")
    (ho : 2 ≤ (options.filter (fun opt => decide (trim opt ≠ ""))).length)
    (h10 : 10 ≤ timeLimit) (h3600 : timeLimit ≤ 3600)
    (hact : (getActivePoll s).isSome = true) :
    createPoll s question options timeLimit teacherSocketId id now =
      { state := s, events := [], error := some "Another poll is currently active" } := by
  have hlen : ¬ options.length < 2 :=
    not_lt.mpr (le_trans ho (List.length_filter_le _ _))
  have hval : ¬ (options.filter (fun opt => decide (trim opt ≠ ""))).length < 2 := not_lt.mpr ho
  have htl : ¬ (timeLimit < 10 ∨ timeLimit > 3600) := by omega
  simp only [createPoll, hq, hlen, hval, htl, hact, if_true, if_false]

theorem submitAnswer_invalid_spec {s : State} (h : Inv s) {poll : Poll}
    (hp : getActivePoll s = some poll) {p : SocketId} (hr : lookupKey p poll.responses = none)
    {k : Int} (now : String) (hk : k < 0 ∨ k ≥ (poll.options.length : Int)) :
    (submitAnswer s p k now).error = some "Invalid option" ∧
    (submitAnswer s p k now).events = (autoJoin s poll p now).2.2 ∧
    (submitAnswer s p k now).state.connectedStudents = (autoJoin s poll p now).2.1 ∧
    lookupKey poll.id (submitAnswer s p k now).state.polls = some (autoJoin s poll p now).1 ∧
    getActivePoll (submitAnswer s p k now).state = some (autoJoin s poll p now).1 ∧
    (∀ k1, k1 ≠ poll.id →
      lookupKey k1 (submitAnswer s p k now).state.polls = lookupKey k1 s.polls) := by
  obtain ⟨-, -, hst, -, -, hopt, -, -⟩ := autoJoin_spec h (h.activePoll hp) p now
  have hact : poll.status = Status.active := (getActivePoll_split hp).1
  rw [submitAnswer_invalid hp hr now (by rw [hopt]; exact hk)]
  refine ⟨rfl, rfl, rfl, ?_, getActivePoll_mutate hp (hst.trans hact) _, ?_⟩
  · simp only [h.lookup_mutate hp, if_true]
  · intro k1 hk1
    simp only [h.lookup_mutate hp, hk1, if_false]

theorem submitAnswer_valid_spec {s : State} (h : Inv s) {poll : Poll}
    (hp : getActivePoll s = some poll) {p : SocketId} (hr : lookupKey p poll.responses = none)
    {k : Int} (now : String) (h0 : 0 ≤ k) (h1 : k < (poll.options.length : Int)) :
    (submitAnswer s p k now).error = none ∧
    (submitAnswer s p k now).state.connectedStudents = (autoJoin s poll p now).2.1 ∧
    (∀ k1, k1 ≠ poll.id →
      lookupKey k1 (submitAnswer s p k now).state.polls = lookupKey k1 s.polls) ∧
    (keys (recordVote (autoJoin s poll p now).1 p k).responses).length ≤
      (keys (recordVote (autoJoin s poll p now).1 p k).students).length ∧
    ((keys (recordVote (autoJoin s poll p now).1 p k).responses).length =
        (keys (recordVote (autoJoin s poll p now).1 p k).students).length →
      lookupKey poll.id (submitAnswer s p k now).state.polls =
        some { recordVote (autoJoin s poll p now).1 p k with
                 status := Status.finished, timer := none } ∧
      getActivePoll (submitAnswer s p k now).state = none) ∧
    ((keys (recordVote (autoJoin s poll p now).1 p k).responses).length ≠
        (keys (recordVote (autoJoin s poll p now).1 p k).students).length →
      lookupKey poll.id (submitAnswer s p k now).state.polls =
        some (recordVote (autoJoin s poll p now).1 p k) ∧
      getActivePoll (submitAnswer s p k now).state =
        some (recordVote (autoJoin s poll p now).1 p k)) := by
  obtain ⟨hj, hid, hst, -, hjr, hopt, hmem, hreg⟩ := autoJoin_spec h (h.activePoll hp) p now
  have hact : poll.status = Status.active := (getActivePoll_split hp).1
  have hk : ¬ (k < 0 ∨ k ≥ ((autoJoin s poll p now).1.options.length : Int)) := by
    rw [hopt]
    omega
  have hvote : PollInv (recordVote (autoJoin s poll p now).1 p k) :=
    hj.vote hmem (hjr ▸ hr) h0 (by rw [hopt]; exact h1)
  have hvid : (recordVote (autoJoin s poll p now).1 p k).id = poll.id := hid
  have hvact : (recordVote (autoJoin s poll p now).1 p k).status = Status.active :=
    hst.trans hact
  have hs2 := h.mutate hp hvote (q := recordVote (autoJoin s poll p now).1 p k) hid hreg
  have hl2 : lookupKey poll.id
      (mutateActive (fun _ => recordVote (autoJoin s poll p now).1 p k) s.polls) =
        some (recordVote (autoJoin s poll p now).1 p k) := by
    simp only [h.lookup_mutate hp, if_true]
  have hg2 := getActivePoll_mutate hp hvact (autoJoin s poll p now).2.1
  have hle := hvote.answered_le
  have hpos : (keys (recordVote (autoJoin s poll p now).1 p k).students).length > 0 :=
    List.length_pos_of_mem hmem
  rw [submitAnswer_valid hp hr now hk]
  by_cases hall : (keys (recordVote (autoJoin s poll p now).1 p k).responses).length =
      (keys (recordVote (autoJoin s poll p now).1 p k).students).length
  · have hcond : (keys (recordVote (autoJoin s poll p now).1 p k).students).length > 0 ∧
        (keys (recordVote (autoJoin s poll p now).1 p k).responses).length ≥
          (keys (recordVote (autoJoin s poll p now).1 p k).students).length :=
      ⟨hpos, by omega⟩
    rw [if_pos hcond, hvid]
    have hend := endPoll_of_active
      { polls := mutateActive (fun _ => recordVote (autoJoin s poll p now).1 p k) s.polls
        connectedStudents := (autoJoin s poll p now).2.1 } poll.id
      (recordVote (autoJoin s poll p now).1 p k) hl2 hvact
    have hinv3 := hs2.endPoll poll.id
    rw [hend] at hinv3 ⊢
    have hl3 : lookupKey poll.id (setKey poll.id
        { recordVote (autoJoin s poll p now).1 p k with
            status := Status.finished, timer := none }
        (mutateActive (fun _ => recordVote (autoJoin s poll p now).1 p k) s.polls)) =
          some { recordVote (autoJoin s poll p now).1 p k with
                   status := Status.finished, timer := none } := by
      simp only [lookupKey_setKey, if_true]
    refine ⟨rfl, rfl, ?_, hle, fun _ => ⟨hl3, ?_⟩, fun hne => absurd hall hne⟩
    · intro k1 hk1
      simp only [lookupKey_setKey, hk1, if_false, h.lookup_mutate hp]
    · cases hg3 : getActivePoll
          { polls := setKey poll.id
              { recordVote (autoJoin s poll p now).1 p k with
                  status := Status.finished, timer := none }
              (mutateActive (fun _ => recordVote (autoJoin s poll p now).1 p k) s.polls)
            connectedStudents := (autoJoin s poll p now).2.1 } with
      | none => rfl
      | some q =>
        exfalso
        have hq := hinv3.lookup_active hg3
        have hqa : q.status = Status.active := (getActivePoll_split hg3).1
        simp only at hq
        by_cases hqid : q.id = poll.id
        · rw [hqid, hl3] at hq
          simp only [Option.some.injEq] at hq
          rw [← hq] at hqa
          simp at hqa
        · rw [lookupKey_setKey, if_neg hqid] at hq
          have hq2 := hs2.active_of_lookup hq hqa
          rw [hg2] at hq2
          simp only [Option.some.injEq] at hq2
          exact hqid (by rw [← hq2]; exact hvid)
  · have hcond : ¬ ((keys (recordVote (autoJoin s poll p now).1 p k).students).length > 0 ∧
        (keys (recordVote (autoJoin s poll p now).1 p k).responses).length ≥
          (keys (recordVote (autoJoin s poll p now).1 p k).students).length) := by
      omega
    rw [if_neg hcond]
    refine ⟨rfl, rfl, ?_, hle, fun he => absurd he hall, fun _ => ⟨hl2, hg2⟩⟩
    intro k1 hk1
    simp only [h.lookup_mutate hp, hk1, if_false]

/-! ## What a removal does -/

theorem submitAnswer_no_poll {s : State} (hp : getActivePoll s = none) (p : SocketId) (k : Int)
    (now : String) :
    submitAnswer s p k now = { state := s, events := [], error := some "No active poll" } := by
  simp only [submitAnswer, hp]

theorem submitAnswer_answered {s : State} {poll : Poll} (hp : getActivePoll s = some poll)
    {p : SocketId} (hr : p ∈ keys poll.responses) (k : Int) (now : String) :
    submitAnswer s p k now =
      { state := s, events := [], error := some "You have already answered" } := by
  have hact : poll.status = Status.active := (getActivePoll_split hp).1
  have hsome : (lookupKey p poll.responses).isSome = true :=
    (lookupKey_isSome_iff p poll.responses).mpr hr
  simp only [submitAnswer, hp, hact, hsome, ne_eq, not_true_eq_false, if_true, if_false]

theorem addStudent_polls (s : State) (socketId : SocketId) (name now : String) :
    (addStudent s socketId name now).state.polls = s.polls ∨
      ∃ poll, getActivePoll s = some poll ∧
        (addStudent s socketId name now).state.polls =
          mutateActive
            (fun _ =>
              { poll with
                  students :=
                    setKey socketId { name := trim name, connectedAt := none } poll.students })
            s.polls := by
  unfold addStudent
  split
  · exact Or.inl rfl
  · simp only
    cases hp : getActivePoll s with
    | none => exact Or.inl rfl
    | some poll => exact Or.inr ⟨poll, rfl, rfl⟩

theorem removeStudent_polls (s : State) (id : SocketId) (socketFound : Bool) :
    (removeStudent s id socketFound).state.connectedStudents =
        deleteKey id s.connectedStudents ∧
      ((removeStudent s id socketFound).state.polls = s.polls ∨
        ∃ poll q, getActivePoll s = some poll ∧ id ∈ keys poll.students ∧
          withdraw poll id = some q ∧
          (removeStudent s id socketFound).state.polls = mutateActive (fun _ => q) s.polls) := by
  unfold removeStudent
  cases hp : getActivePoll s with
  | none => exact ⟨rfl, Or.inl rfl⟩
  | some poll =>
    simp only
    by_cases hm : (lookupKey id poll.students).isSome = true
    · simp only [hm, if_true]
      cases hw : withdraw poll id with
      | none => exact ⟨rfl, Or.inl rfl⟩
      | some q =>
        exact ⟨rfl, Or.inr ⟨poll, q, rfl, (lookupKey_isSome_iff id poll.students).mp hm, hw, rfl⟩⟩
    · simp only [hm]
      exact ⟨rfl, Or.inl rfl⟩

theorem handleDisconnect_polls (s : State) (id : SocketId) :
    (handleDisconnect s id).state.connectedStudents = deleteKey id s.connectedStudents ∧
      ((handleDisconnect s id).state.polls = s.polls ∨
        ∃ poll q, getActivePoll s = some poll ∧ id ∈ keys poll.students ∧
          withdraw poll id = some q ∧
          (handleDisconnect s id).state.polls = mutateActive (fun _ => q) s.polls) := by
  unfold handleDisconnect
  cases hp : getActivePoll s with
  | none => exact ⟨rfl, Or.inl rfl⟩
  | some poll =>
    simp only
    by_cases hm : (lookupKey id poll.students).isSome = true
    · simp only [hm, if_true]
      cases hw : withdraw poll id with
      | none => exact ⟨rfl, Or.inl rfl⟩
      | some q =>
        exact ⟨rfl, Or.inr ⟨poll, q, rfl, (lookupKey_isSome_iff id poll.students).mp hm, hw, rfl⟩⟩
    · simp only [hm]
      exact ⟨rfl, Or.inl rfl⟩

theorem Inv.finished_ne_active {s : State} (h : Inv s) {poll : Poll}
    (hp : getActivePoll s = some poll) {k : PollId} {P : Poll}
    (hl : lookupKey k s.polls = some P) (hf : P.status = Status.finished) : k ≠ poll.id := by
  intro hk
  rw [hk, h.lookup_active hp] at hl
  have hact : poll.status = Status.active := (getActivePoll_split hp).1
  simp only [Option.some.injEq] at hl
  rw [hl, hf] at hact
  exact absurd hact (by decide)

theorem Inv.frozen_mutate {s : State} (h : Inv s) {poll : Poll}
    (hp : getActivePoll s = some poll) {k : PollId} {P : Poll}
    (hl : lookupKey k s.polls = some P) (hf : P.status = Status.finished) (f : Poll → Poll) :
    lookupKey k (mutateActive f s.polls) = some P := by
  rw [h.lookup_mutate hp, if_neg (h.finished_ne_active hp hl hf), hl]

theorem frozen_endPoll {s : State} {k : PollId} {P : Poll}
    (hl : lookupKey k s.polls = some P) (hf : P.status = Status.finished) (pollId : PollId) :
    lookupKey k (endPoll s pollId).state.polls = some P := by
  by_cases hk : pollId = k
  · rw [hk, endPoll_of_finished s k P hl hf]
    exact hl
  · cases hq : lookupKey pollId s.polls with
    | none =>
      rw [endPoll_of_missing s pollId hq]
      exact hl
    | some q =>
      rcases status_cases q.status with hs | hs
      · rw [endPoll_of_active s pollId q hq hs]
        have hk2 : ¬ k = pollId := fun h2 => hk h2.symm
        simp only [lookupKey_setKey, hk2, if_false]
        exact hl
      · rw [endPoll_of_finished s pollId q hq hs]
        exact hl

theorem frozen_submitAnswer {s : State} (h : Inv s) {k : PollId} {P : Poll}
    (hl : lookupKey k s.polls = some P) (hf : P.status = Status.finished)
    (p : SocketId) (i : Int) (now : String) :
    lookupKey k (submitAnswer s p i now).state.polls = some P := by
  cases hp : getActivePoll s with
  | none =>
    rw [submitAnswer_no_poll hp]
    exact hl
  | some poll =>
    have hne := h.finished_ne_active hp hl hf
    cases hr : lookupKey p poll.responses with
    | some v =>
      rw [submitAnswer_answered hp
        ((lookupKey_isSome_iff p poll.responses).mp (by rw [hr]; rfl))]
      exact hl
    | none =>
      by_cases hk : i < 0 ∨ i ≥ (poll.options.length : Int)
      · rw [(submitAnswer_invalid_spec h hp hr now hk).2.2.2.2.2 k hne]
        exact hl
      · rw [(submitAnswer_valid_spec h hp hr now (by omega) (by omega)).2.2.1 k hne]
        exact hl

theorem autoJoin_member (s : State) {poll : Poll} {p : SocketId} (hm : p ∈ keys poll.students)
    (now : String) : autoJoin s poll p now = (poll, s.connectedStudents, []) := by
  have hsome := (lookupKey_isSome_iff p poll.students).mpr hm
  unfold autoJoin
  cases hl : lookupKey p poll.students with
  | none => simp [hl] at hsome
  | some st => rfl

theorem anonNumber_eq {poll : Poll} (h : (keys poll.students).Nodup) :
    anonNumber poll = anonCount poll + 1 := by
  unfold anonNumber anonCount
  congr 1
  have hcongr : ∀ e ∈ poll.students,
      (match lookupKey e.1 poll.students with
        | some st => startsWith st.name "Anonymous"
        | none => false) = startsWith e.2.name "Anonymous" := by
    intro e he
    rw [lookupKey_of_mem h (show (e.1, e.2) ∈ poll.students from he)]
  have hfm : (keys poll.students).filter (fun id =>
        match lookupKey id poll.students with
        | some st => startsWith st.name "Anonymous"
        | none => false) =
      (poll.students.filter (fun e =>
        match lookupKey e.1 poll.students with
        | some st => startsWith st.name "Anonymous"
        | none => false)).map Prod.fst := by
    unfold keys
    rw [List.filter_map]
    rfl
  rw [hfm, List.length_map, List.filter_congr hcongr]

theorem startsWith_append (a b : String) : startsWith (a ++ b) a = true := by
  unfold startsWith
  rw [List.isPrefixOf_iff_prefix]
  exact ⟨b.toList, by simp [String.toList]⟩

theorem autoJoin_unknown (s : State) {poll : Poll} {p : SocketId}
    (hs : p ∉ keys poll.students) (hreg : p ∉ keys s.connectedStudents) (now : String) :
    autoJoin s poll p now =
      ({ poll with
           students := setKey p { name := anonName poll, connectedAt := none } poll.students },
       setKey p { name := anonName poll, connectedAt := some now } s.connectedStudents,
       [Event.studentJoined p (anonName poll)]) := by
  have h1 := (lookupKey_eq_none_iff p poll.students).mpr hs
  have h2 := (lookupKey_eq_none_iff p s.connectedStudents).mpr hreg
  simp only [autoJoin, h1, h2]

theorem submitAnswer_students {s : State} (h : Inv s) {poll : Poll}
    (hp : getActivePoll s = some poll) {p : SocketId} (hr : lookupKey p poll.responses = none)
    (k : Int) (now : String) :
    (submitAnswer s p k now).state.connectedStudents = (autoJoin s poll p now).2.1 ∧
    ∃ q, lookupKey poll.id (submitAnswer s p k now).state.polls = some q ∧
      q.id = poll.id ∧ q.students = (autoJoin s poll p now).1.students ∧
      (getActivePoll (submitAnswer s p k now).state = some q ∨
        getActivePoll (submitAnswer s p k now).state = none) := by
  obtain ⟨-, hid, -, -, -, -, -, -⟩ := autoJoin_spec h (h.activePoll hp) p now
  by_cases hk : k < 0 ∨ k ≥ (poll.options.length : Int)
  · obtain ⟨-, -, hreg, hl, hg, -⟩ := submitAnswer_invalid_spec h hp hr now hk
    exact ⟨hreg, _, hl, hid, rfl, Or.inl hg⟩
  · have h0 : 0 ≤ k := by omega
    have h1 : k < (poll.options.length : Int) := by omega
    obtain ⟨-, hreg, -, -, hfin, hactive⟩ := submitAnswer_valid_spec h hp hr now h0 h1
    refine ⟨hreg, ?_⟩
    by_cases hall : (keys (recordVote (autoJoin s poll p now).1 p k).responses).length =
        (keys (recordVote (autoJoin s poll p now).1 p k).students).length
    · exact ⟨_, (hfin hall).1, hid, rfl, Or.inr (hfin hall).2⟩
    · exact ⟨_, (hactive hall).1, hid, rfl, Or.inl (hactive hall).2⟩

theorem placeholder_core {s : State} (h : Inv s) {poll : Poll}
    (hp : getActivePoll s = some poll) {p : SocketId} (hs : p ∉ keys poll.students)
    (hreg : p ∉ keys s.connectedStudents) (k : Int) (now : String) :
    lookupKey p (submitAnswer s p k now).state.connectedStudents =
      some { name := "Anonymous" ++ toString (anonCount poll + 1), connectedAt := some now } ∧
    (∀ p1, p1 ≠ p → lookupKey p1 (submitAnswer s p k now).state.connectedStudents =
      lookupKey p1 s.connectedStudents) ∧
    ∃ q, lookupKey poll.id (submitAnswer s p k now).state.polls = some q ∧
      q.id = poll.id ∧
      lookupKey p q.students =
        some { name := "Anonymous" ++ toString (anonCount poll + 1), connectedAt := none } ∧
      (∀ p1, p1 ≠ p → lookupKey p1 q.students = lookupKey p1 poll.students) ∧
      anonCount q = anonCount poll + 1 ∧
      (getActivePoll (submitAnswer s p k now).state = some q ∨
        getActivePoll (submitAnswer s p k now).state = none) := by
  have hpi := h.activePoll hp
  have hr : lookupKey p poll.responses = none :=
    (lookupKey_eq_none_iff p poll.responses).mpr (fun hc => hs (hpi.respondents p hc))
  have hname : anonName poll = "Anonymous" ++ toString (anonCount poll + 1) := by
    unfold anonName
    rw [anonNumber_eq hpi.studentsNodup]
  obtain ⟨hregs, q, hl, hid, hst, hg⟩ := submitAnswer_students h hp hr k now
  rw [autoJoin_unknown s hs hreg now] at hregs hst
  simp only at hregs hst
  rw [hregs, hname] at *
  refine ⟨by simp only [lookupKey_setKey, if_true], ?_, q, hl, hid, ?_, ?_, ?_, hg⟩
  · intro p1 hp1
    simp only [lookupKey_setKey, hp1, if_false]
  · rw [hst]
    simp only [lookupKey_setKey, if_true]
  · intro p1 hp1
    rw [hst]
    simp only [lookupKey_setKey, hp1, if_false]
  · unfold anonCount
    rw [hst, setKey_of_not_mem _ hs, List.filter_append, List.length_append]
    simp [List.filter_cons, startsWith_append]

/-! ## The broadcasts of a call -/

theorem setKey_setKey {α : Type} (k : String) (v w : α) (m : List (String × α)) :
    setKey k v (setKey k w m) = setKey k v m := by
  induction m with
  | nil => simp [setKey]
  | cons e m ih =>
    obtain ⟨k1, v1⟩ := e
    by_cases h : k1 = k
    · simp [setKey, h]
    · simp [setKey, h, ih]

theorem keys_setKey (k : String) (v w : α) (m : List (String × α)) :
    keys (setKey k v m) = keys (setKey k w m) := by
  induction m with
  | nil => rfl
  | cons e m ih =>
    obtain ⟨k1, v1⟩ := e
    simp only [keys] at ih
    by_cases h : k1 = k
    · simp [setKey, keys, h]
    · simp [setKey, keys, h, ih]

theorem getActivePoll_registry (polls : List (PollId × Poll))
    (r1 r2 : List (SocketId × Student)) :
    getActivePoll { polls := polls, connectedStudents := r1 } =
      getActivePoll { polls := polls, connectedStudents := r2 } :=
  rfl

theorem mutateActive_self {s : State} {q : Poll} (hq : getActivePoll s = some q)
    (f : Poll → Poll) (hf : f q = q) : mutateActive f s.polls = s.polls := by
  obtain ⟨-, l1, l2, k, hsplit, -, hmut⟩ := getActivePoll_split hq
  rw [hmut, hf, hsplit]

theorem addStudent_blank (s : State) (socketId : SocketId) {name : String} (now : String)
    (h : trim name = "") :
    addStudent s socketId name now =
      { state := s, events := [], error := some "Valid name is required" } := by
  simp only [addStudent, h, if_true]

theorem addStudent_no_poll {s : State} (socketId : SocketId) {name : String} (now : String)
    (h : trim name ≠ "") (hp : getActivePoll s = none) :
    addStudent s socketId name now =
      { state :=
          { polls := s.polls
            connectedStudents :=
              setKey socketId { name := trim name, connectedAt := some now }
                s.connectedStudents }
        events := [Event.studentJoined socketId (trim name)]
        error := none } := by
  simp only [addStudent, h, if_false, hp]

theorem addStudent_active {s : State} (socketId : SocketId) {name : String} (now : String)
    (h : trim name ≠ "") {poll : Poll} (hp : getActivePoll s = some poll) :
    addStudent s socketId name now =
      { state :=
          { polls :=
              mutateActive
                (fun _ =>
                  { poll with
                      students :=
                        setKey socketId { name := trim name, connectedAt := none }
                          poll.students })
                s.polls
            connectedStudents :=
              setKey socketId { name := trim name, connectedAt := some now }
                s.connectedStudents }
        events :=
          [Event.studentJoined socketId (trim name),
           pollUpdate
             { poll with
                 students :=
                   setKey socketId { name := trim name, connectedAt := none } poll.students }]
        error := none } := by
  simp only [addStudent, h, if_false, hp]

theorem addStudent_registry (s : State) (socketId : SocketId) {name : String} (now : String)
    (h : trim name ≠ "") :
    (addStudent s socketId name now).error = none ∧
    (addStudent s socketId name now).state.connectedStudents =
      setKey socketId { name := trim name, connectedAt := some now } s.connectedStudents := by
  cases hp : getActivePoll s with
  | none =>
    rw [addStudent_no_poll socketId now h hp]
    exact ⟨rfl, rfl⟩
  | some poll =>
    rw [addStudent_active socketId now h hp]
    exact ⟨rfl, rfl⟩

theorem addStudent_twice_polls (s : State) (socketId : SocketId) {name : String}
    (now now2 : String) (h : trim name ≠ "") :
    (addStudent (addStudent s socketId name now).state socketId name now2).state.polls =
      (addStudent s socketId name now).state.polls := by
  cases hp : getActivePoll s with
  | none =>
    rw [addStudent_no_poll socketId now h hp]
    have hp2 : getActivePoll
        { polls := s.polls
          connectedStudents :=
            setKey socketId { name := trim name, connectedAt := some now }
              s.connectedStudents } = none := hp
    rw [addStudent_no_poll socketId now2 h hp2]
  | some poll =>
    have hact : poll.status = Status.active := (getActivePoll_split hp).1
    rw [addStudent_active socketId now h hp]
    have hp2 := getActivePoll_mutate hp
      (q := { poll with
                students :=
                  setKey socketId { name := trim name, connectedAt := none } poll.students })
      hact (setKey socketId { name := trim name, connectedAt := some now } s.connectedStudents)
    rw [addStudent_active socketId now2 h hp2]
    simp only [setKey_setKey]
    exact mutateActive_self hp2 _ rfl

/-! ## Frames that hold in every state -/

theorem autoJoin_frame (s : State) (poll : Poll) (p : SocketId) (now : String) :
    (autoJoin s poll p now).1.id = poll.id ∧
    (autoJoin s poll p now).1.status = poll.status ∧
    (autoJoin s poll p now).1.responses = poll.responses ∧
    (autoJoin s poll p now).1.options = poll.options := by
  unfold autoJoin
  cases lookupKey p poll.students with
  | none =>
    cases lookupKey p s.connectedStudents with
    | none => exact ⟨rfl, rfl, rfl, rfl⟩
    | some reg => exact ⟨rfl, rfl, rfl, rfl⟩
  | some st => exact ⟨rfl, rfl, rfl, rfl⟩

theorem submitAnswer_error_of_valid {s : State} {poll : Poll}
    (hp : getActivePoll s = some poll) {p : SocketId} (hr : lookupKey p poll.responses = none)
    {k : Int} (now : String) (h0 : 0 ≤ k) (h1 : k < (poll.options.length : Int)) :
    (submitAnswer s p k now).error = none := by
  have hk : ¬ (k < 0 ∨ k ≥ ((autoJoin s poll p now).1.options.length : Int)) := by
    rw [(autoJoin_frame s poll p now).2.2.2]
    omega
  rw [submitAnswer_valid hp hr now hk]
  split <;> rfl

theorem statuses_mutate {s : State} {poll q : Poll} (hp : getActivePoll s = some poll)
    (hq : q.status = poll.status) (reg : List (SocketId × Student)) :
    statuses { polls := mutateActive (fun _ => q) s.polls, connectedStudents := reg } =
      statuses s := by
  obtain ⟨-, l1, l2, k, hsplit, -, hmut⟩ := getActivePoll_split hp
  show (mutateActive (fun _ => q) s.polls).map (fun e => (e.1, e.2.status)) =
    s.polls.map (fun e => (e.1, e.2.status))
  rw [hmut, hsplit]
  simp only [List.map_append, List.map_cons, hq]

/-! ## Leaving and joining again -/

/-- C2 (single active poll): in every reachable state at most one stored poll
is active; and `createPoll` called with a non-blank question, two non-blank
options and a time limit in range while a stored poll is active throws
`Another poll is currently active`, broadcasts nothing and leaves the store and
the registry as they were. -/
theorem single_active_poll (s : State) :
    (Reachable s → activeCount s ≤ 1) ∧
    (∀ (question : String) (options : List String) (timeLimit : Int)
        (teacherSocketId : Option SocketId) (id : PollId) (now : String),
      (∃ e ∈ s.polls, e.2.status = Status.active) →
      trim question ≠ "" →
      2 ≤ (options.filter (fun opt => decide (trim opt ≠ ""))).length →
      10 ≤ timeLimit → timeLimit ≤ 3600 →
      createPoll s question options timeLimit teacherSocketId id now =
        { state := s, events := [], error := some "Another poll is currently active" }) :=
  ⟨fun h => h.inv.oneActive,
    fun question options timeLimit teacherSocketId id now hact hq ho h10 h3600 =>
      createPoll_of_active s question options timeLimit teacherSocketId id now hq ho h10 h3600
        ((getActivePoll_isSome_iff s).mpr hact)⟩

/-- C2, on the state of `Example.afterFirstVote`, whose poll `p1` is active. -/
theorem single_active_poll_witness :
    activeCount Example.afterFirstVote ≤ 1 ∧
      createPoll Example.afterFirstVote "Next?" ["Yes", " ", "No"] 60 none "p2" "t4" =
        { state := Example.afterFirstVote, events := [],
          error := some "Another poll is currently active" } :=
  ⟨(single_active_poll Example.afterFirstVote).1 (Reachable.empty.runAll _),
    (single_active_poll Example.afterFirstVote).2 "Next?" ["Yes", " ", "No"] 60 none "p2" "t4"
      ⟨("p1", Example.pollAfterFirstVote), by decide, by decide⟩
      (by decide) (by decide) (by decide) (by decide)⟩

/-- C6 (createPoll acceptance): for every question, option list and integer
time limit, `createPoll` returns without error exactly when the question is
non-blank after trimming, at least two options are non-blank after trimming,
the time limit lies in 10..3600 and no poll is active; when it throws, the
state is unchanged and nothing is broadcast.  Time limits 5 and 3601 throw,
and 3600 is accepted when the other conditions hold. -/
theorem createPoll_acceptance (s : State) (question : String) (options : List String)
    (timeLimit : Int) (teacherSocketId : Option SocketId) (id : PollId) (now : String) :
    ((createPoll s question options timeLimit teacherSocketId id now).error = none ↔
      (trim question ≠ "" ∧
        2 ≤ (options.filter (fun opt => decide (trim opt ≠ ""))).length ∧
        10 ≤ timeLimit ∧ timeLimit ≤ 3600 ∧ getActivePoll s = none)) ∧
    ((createPoll s question options timeLimit teacherSocketId id now).error ≠ none →
      (createPoll s question options timeLimit teacherSocketId id now).state = s ∧
      (createPoll s question options timeLimit teacherSocketId id now).events = []) ∧
    (createPoll s question options 5 teacherSocketId id now).error ≠ none ∧
    (createPoll s question options 3601 teacherSocketId id now).error ≠ none ∧
    (trim question ≠ "" →
      2 ≤ (options.filter (fun opt => decide (trim opt ≠ ""))).length →
      getActivePoll s = none →
      (createPoll s question options 3600 teacherSocketId id now).error = none) := by
  refine ⟨createPoll_error_eq_none_iff s question options timeLimit teacherSocketId id now,
    createPoll_state_of_error s question options timeLimit teacherSocketId id now, ?_, ?_, ?_⟩
  · rw [Ne, createPoll_error_eq_none_iff]
    omega
  · rw [Ne, createPoll_error_eq_none_iff]
    omega
  · intro hq ho hact
    rw [createPoll_error_eq_none_iff]
    exact ⟨hq, ho, by omega, by omega, hact⟩

/-- C6, on the empty state: time limit 3600 is accepted, and a call with a
blank option list throws and changes nothing. -/
theorem createPoll_acceptance_witness :
    (createPoll State.empty "Best color?" ["Red", "Blue"] 3600 none "p1" "t0").error = none ∧
      (createPoll State.empty "Best color?" ["Red", "  "] 30 none "p1" "t0").state =
        State.empty :=
  ⟨(createPoll_acceptance State.empty "Best color?" ["Red", "Blue"] 3600 none "p1" "t0").2.2.2.2
      (by decide) (by decide) (by decide),
    ((createPoll_acceptance State.empty "Best color?" ["Red", "  "] 30 none "p1" "t0").2.1
      (by decide)).1⟩

/-- C7 (createPoll postcondition): when `createPoll` returns, the store holds
under the generated id a poll that is active, whose question is the trimmed
input, whose options are the trimmed non-blank inputs in their order each with
count 0, whose responses are empty, whose time limit is the given one, whose
auto-close timer is pending and whose members are the registry entries of the
moment; the registry is unchanged, every poll stored under another id is
unchanged, and one `pollStarted` event is broadcast. -/
theorem createPoll_postcondition (s : State) (question : String) (options : List String)
    (timeLimit : Int) (teacherSocketId : Option SocketId) (id : PollId) (now : String)
    (hok : (createPoll s question options timeLimit teacherSocketId id now).error = none) :
    (∃ poll : Poll,
      lookupKey id (createPoll s question options timeLimit teacherSocketId id now).state.polls =
        some poll ∧
      poll.id = id ∧ poll.status = Status.active ∧ poll.question = trim question ∧
      poll.options = ((options.map trim).filter (fun t => decide (t ≠ ""))).map
        (fun t => { text := t, count := 0 }) ∧
      poll.responses = [] ∧ poll.timeLimit = timeLimit ∧
      poll.timer = some (timeLimit * 1000) ∧
      poll.students = s.connectedStudents ∧
      keys poll.students = keys s.connectedStudents ∧
      (∀ k, (lookupKey k poll.students).map Student.name =
        (lookupKey k s.connectedStudents).map Student.name)) ∧
    (createPoll s question options timeLimit teacherSocketId id now).state.connectedStudents =
      s.connectedStudents ∧
    (∀ k, k ≠ id →
      lookupKey k (createPoll s question options timeLimit teacherSocketId id now).state.polls =
        lookupKey k s.polls) ∧
    (createPoll s question options timeLimit teacherSocketId id now).events =
      [Event.pollStarted id (trim question)
        ((options.map trim).filter (fun t => decide (t ≠ ""))) timeLimit] := by
  have hfm : ∀ {β : Type} (g : String → β),
      (options.filter (fun opt => decide (trim opt ≠ ""))).map (fun opt => g (trim opt)) =
        ((options.map trim).filter (fun t => decide (t ≠ ""))).map g := by
    intro β g
    rw [List.filter_map, List.map_map]
    rfl
  rw [createPoll_success s question options timeLimit teacherSocketId id now hok]
  refine ⟨⟨{ id := id
             question := trim question
             options := (options.filter (fun opt => decide (trim opt ≠ ""))).map
               (fun opt => { text := trim opt, count := 0 })
             responses := []
             students := s.connectedStudents
             status := Status.active
             timeLimit := timeLimit
             teacherSocketId := teacherSocketId
             timer := some (timeLimit * 1000)
             createdAt := now }, ?_, rfl, rfl, rfl, ?_, rfl, rfl, rfl, rfl, rfl, fun _ => rfl⟩,
    rfl, ?_, ?_⟩
  · simp only [lookupKey_setKey, if_true]
  · exact hfm (fun t => ({ text := t, count := 0 } : PollOption))
  · intro k hk
    simp only [lookupKey_setKey, hk, if_false]
  · rw [hfm (fun t => t), List.map_id']

/-- C7, on the registry of `Example.afterFirstVote` with an empty store. -/
theorem createPoll_postcondition_witness :
    (createPoll { polls := [], connectedStudents := Example.afterFirstVote.connectedStudents }
        "  Next? " ["Yes", " ", " No"] 60 none "p2" "t4").events =
      [Event.pollStarted "p2" "Next?" ["Yes", "No"] 60] :=
  (createPoll_postcondition
    { polls := [], connectedStudents := Example.afterFirstVote.connectedStudents }
    "  Next? " ["Yes", " ", " No"] 60 none "p2" "t4" (by decide)).2.2.2

/-- C8 (terminate is idempotent): `endPoll` on an id that is not in the store,
or whose poll is finished, changes nothing and broadcasts nothing; on an active
poll it sets the status to finished and the timer to `null`, leaves every other
field of that poll, every other poll and the registry unchanged, and broadcasts
the final counts; a second `endPoll` on the same id leaves the state of the
first. -/
theorem endPoll_idempotent (s : State) (pollId : PollId) :
    (lookupKey pollId s.polls = none →
      endPoll s pollId = { state := s, events := [], error := none }) ∧
    (∀ poll, lookupKey pollId s.polls = some poll → poll.status = Status.finished →
      endPoll s pollId = { state := s, events := [], error := none }) ∧
    (∀ poll, lookupKey pollId s.polls = some poll → poll.status = Status.active →
      lookupKey pollId (endPoll s pollId).state.polls =
        some { poll with status := Status.finished, timer := none } ∧
      (∀ k, k ≠ pollId → lookupKey k (endPoll s pollId).state.polls = lookupKey k s.polls) ∧
      keys (endPoll s pollId).state.polls = keys s.polls ∧
      (endPoll s pollId).state.connectedStudents = s.connectedStudents ∧
      (endPoll s pollId).events =
        [Event.pollResults poll.id (counts poll) (poll.options.map PollOption.text)]) ∧
    (endPoll (endPoll s pollId).state pollId).state = (endPoll s pollId).state := by
  refine ⟨endPoll_of_missing s pollId, endPoll_of_finished s pollId, ?_, ?_⟩
  · intro poll hl hs
    rw [endPoll_of_active s pollId poll hl hs]
    refine ⟨?_, ?_, ?_, rfl, rfl⟩
    · simp only [lookupKey_setKey, if_true]
    · intro k hk
      simp only [lookupKey_setKey, hk, if_false]
    · exact keys_setKey_of_mem _ ((lookupKey_isSome_iff pollId s.polls).mp (by rw [hl]; rfl))
  · cases hl : lookupKey pollId s.polls with
    | none => rw [endPoll_of_missing s pollId hl, endPoll_of_missing s pollId hl]
    | some poll =>
      rcases status_cases poll.status with hs | hs
      · rw [endPoll_of_active s pollId poll hl hs]
        rw [endPoll_of_finished _ pollId { poll with status := Status.finished, timer := none }
          (by simp only [lookupKey_setKey, if_true]) rfl]
      · rw [endPoll_of_finished s pollId poll hl hs, endPoll_of_finished s pollId poll hl hs]

/-- C8, on the state of `Example.afterFirstVote`, whose poll `p1` is active. -/
theorem endPoll_idempotent_witness :
    lookupKey "p1" (endPoll Example.afterFirstVote "p1").state.polls =
        some { Example.pollAfterFirstVote with status := Status.finished, timer := none } ∧
      endPoll (endPoll Example.afterFirstVote "p1").state "p1" =
        { state := (endPoll Example.afterFirstVote "p1").state, events := [], error := none } :=
  ⟨((endPoll_idempotent Example.afterFirstVote "p1").2.2.1 Example.pollAfterFirstVote
      (by decide) (by decide)).1,
    (endPoll_idempotent (endPoll Example.afterFirstVote "p1").state "p1").2.1
      { Example.pollAfterFirstVote with status := Status.finished, timer := none }
      (by decide) (by decide)⟩

/-- C9 (finished polls are frozen): in a reachable state, a stored poll whose
status is finished has no timer, and any call (`createPoll` under an id other
than the poll's, as `generateId` yields unique ids; `addStudent`;
`submitAnswer`; `endPoll`; `removeStudent`; `handleDisconnect`), returning or
throwing, leaves that poll object as it was in every field, so it stays
finished; only the cleanup timer of that poll removes it from the store. -/
theorem finished_polls_frozen (s : State) (h : Reachable s) (k : PollId) (P : Poll)
    (hmem : (k, P) ∈ s.polls) (hf : P.status = Status.finished) (op : Op)
    (hfresh : ∀ q os tl t id now, op = Op.createPoll q os tl t id now → id ≠ k) :
    P.timer = none ∧
    (lookupKey k (run s op).state.polls = some P ∨
      (op = Op.cleanup k ∧ lookupKey k (run s op).state.polls = none)) := by
  have hinv := h.inv
  have hl : lookupKey k s.polls = some P := lookupKey_of_mem hinv.pollKeys hmem
  refine ⟨(hinv.polls (k, P) hmem).timerCleared hf, ?_⟩
  cases op with
  | createPoll q os tl t id now =>
    left
    have hid : k ≠ id := fun h2 => hfresh q os tl t id now rfl h2.symm
    by_cases hok : (createPoll s q os tl t id now).error = none
    · simp only [run, createPoll_success s q os tl t id now hok, lookupKey_setKey, hid, if_false]
      exact hl
    · simp only [run, (createPoll_state_of_error s q os tl t id now hok).1]
      exact hl
  | addStudent id name now =>
    left
    rcases addStudent_polls s id name now with h1 | ⟨poll, hp, h1⟩
    · simp only [run, h1]
      exact hl
    · simp only [run, h1]
      exact hinv.frozen_mutate hp hl hf _
  | submitAnswer id i now => exact Or.inl (frozen_submitAnswer hinv hl hf id i now)
  | endPoll id => exact Or.inl (frozen_endPoll hl hf id)
  | removeStudent id found =>
    left
    rcases (removeStudent_polls s id found).2 with h1 | ⟨poll, q, hp, -, -, h1⟩
    · simp only [run, h1]
      exact hl
    · simp only [run, h1]
      exact hinv.frozen_mutate hp hl hf _
  | handleDisconnect id =>
    left
    rcases (handleDisconnect_polls s id).2 with h1 | ⟨poll, q, hp, -, -, h1⟩
    · simp only [run, h1]
      exact hl
    · simp only [run, h1]
      exact hinv.frozen_mutate hp hl hf _
  | cleanup id =>
    by_cases hk : k = id
    · right
      subst hk
      exact ⟨rfl, by simp only [run, cleanup, lookupKey_deleteKey, if_true]⟩
    · left
      simp only [run, cleanup, lookupKey_deleteKey, hk, if_false]
      exact hl

/-- C9, on the state of `Example.afterSecondVote`, whose poll `p1` is
finished: a further vote throws and leaves the poll as it was. -/
theorem finished_polls_frozen_witness :
    Example.pollAfterSecondVote.timer = none ∧
      (lookupKey "p1" (run Example.afterSecondVote (Op.submitAnswer "C" 0 "t5")).state.polls =
          some Example.pollAfterSecondVote ∨
        (Op.submitAnswer "C" 0 "t5" = Op.cleanup "p1" ∧
          lookupKey "p1" (run Example.afterSecondVote (Op.submitAnswer "C" 0 "t5")).state.polls =
            none)) :=
  finished_polls_frozen Example.afterSecondVote
    ((Reachable.empty.runAll Example.firstCalls : Reachable Example.afterFirstVote).runAll _) "p1"
    Example.pollAfterSecondVote (by decide) (by decide) (Op.submitAnswer "C" 0 "t5")
    (fun _ _ _ _ _ _ h => by cases h)

/-- C10 (placeholder naming): in a reachable state with an active poll, when
`submitAnswer` is called by an id that is neither a member of the poll nor in
the registry, the id is entered in the poll and in the registry under the name
`Anonymous` followed by the decimal of one more than the number of members
whose name starts with `Anonymous`, whether the vote itself is then accepted
or rejected.  So in a poll without such members the caller is named
`Anonymous1`, and the next unknown caller on the poll, if it is still active,
is named `Anonymous2`. -/
theorem placeholder_naming (s : State) (h : Reachable s) (poll : Poll)
    (hp : getActivePoll s = some poll) (p : SocketId) (hs : p ∉ keys poll.students)
    (hreg : p ∉ keys s.connectedStudents) (k : Int) (now : String) :
    (lookupKey p (submitAnswer s p k now).state.connectedStudents =
        some { name := "Anonymous" ++ toString (anonCount poll + 1), connectedAt := some now } ∧
      ∃ q, lookupKey poll.id (submitAnswer s p k now).state.polls = some q ∧
        lookupKey p q.students =
          some { name := "Anonymous" ++ toString (anonCount poll + 1), connectedAt := none }) ∧
    (anonCount poll = 0 →
      (lookupKey p (submitAnswer s p k now).state.connectedStudents).map Student.name =
        some "Anonymous1" ∧
      ∀ (p2 : SocketId) (k2 : Int) (now2 : String), p2 ≠ p → p2 ∉ keys poll.students →
        p2 ∉ keys s.connectedStudents →
        (getActivePoll (submitAnswer s p k now).state).isSome = true →
        (lookupKey p2 (submitAnswer (submitAnswer s p k now).state p2 k2
            now2).state.connectedStudents).map Student.name = some "Anonymous2" ∧
        ∃ q2, lookupKey poll.id
            (submitAnswer (submitAnswer s p k now).state p2 k2 now2).state.polls = some q2 ∧
          (lookupKey p2 q2.students).map Student.name = some "Anonymous2" ∧
          (lookupKey p q2.students).map Student.name = some "Anonymous1") := by
  have hinv := h.inv
  obtain ⟨hr1, hr2, q, hl, hid, hq1, hq2, hcount, hg⟩ := placeholder_core hinv hp hs hreg k now
  refine ⟨⟨hr1, q, hl, hq1⟩, ?_⟩
  intro hzero
  rw [hzero] at hr1 hq1 hcount
  refine ⟨by rw [hr1]; rfl, ?_⟩
  intro p2 k2 now2 hne hs2 hreg2 hsome
  have hg2 : getActivePoll (submitAnswer s p k now).state = some q := by
    rcases hg with hg | hg
    · exact hg
    · rw [hg] at hsome
      simp at hsome
  have hinv2 := hinv.submitAnswer p k now
  have hs3 : p2 ∉ keys q.students := by
    rw [← lookupKey_eq_none_iff, hq2 p2 hne, lookupKey_eq_none_iff]
    exact hs2
  have hreg3 : p2 ∉ keys (submitAnswer s p k now).state.connectedStudents := by
    rw [← lookupKey_eq_none_iff, hr2 p2 hne, lookupKey_eq_none_iff]
    exact hreg2
  obtain ⟨hr3, -, q2, hl2, -, hq3, hq4, -, -⟩ :=
    placeholder_core hinv2 hg2 hs3 hreg3 k2 now2
  rw [hcount] at hr3 hq3
  rw [hid] at hl2
  refine ⟨by rw [hr3]; rfl, q2, hl2, by rw [hq3]; rfl, ?_⟩
  rw [hq4 p (fun hc => hne hc.symm), hq1]
  rfl

/-- C10, on the state of `Example.afterXJoins`: the unknown callers `u1` and
`u2` vote in turn. -/
theorem placeholder_naming_witness :
    (lookupKey "u1" (submitAnswer Example.afterXJoins "u1" 0 "t2").state.connectedStudents).map
        Student.name = some "Anonymous1" ∧
      (lookupKey "u2" (submitAnswer (submitAnswer Example.afterXJoins "u1" 0 "t2").state "u2" 1
        "t3").state.connectedStudents).map Student.name = some "Anonymous2" :=
  ⟨((placeholder_naming Example.afterXJoins (Reachable.empty.runAll _) Example.pollAfterXJoins
      (by decide) "u1" (by decide) (by decide) 0 "t2").2 (by decide)).1,
    (((placeholder_naming Example.afterXJoins (Reachable.empty.runAll _) Example.pollAfterXJoins
      (by decide) "u1" (by decide) (by decide) 0 "t2").2 (by decide)).2
        "u2" 1 "t3" (by decide) (by decide) (by decide) (by decide)).1⟩

/-- C12 (removal frame): for every state and every id, after
`removeStudent(id)` and after `handleDisconnect(id)` the registry has no entry
for `id` and every other registry entry is as before; and when no poll is
active, or `id` is not a member of the active poll, the poll store is exactly
as before. -/
theorem removal_frame (s : State) (id : SocketId) (socketFound : Bool) :
    RemovalFrame s (removeStudent s id socketFound).state id ∧
      RemovalFrame s (handleDisconnect s id).state id := by
  constructor
  · obtain ⟨hreg, hpolls⟩ := removeStudent_polls s id socketFound
    refine ⟨?_, ?_, ?_⟩
    · rw [hreg, lookupKey_deleteKey, if_pos rfl]
    · intro k hk
      rw [hreg, lookupKey_deleteKey, if_neg hk]
    · intro hnot
      rcases hpolls with h1 | ⟨poll, q, hp, hm, -, -⟩
      · exact h1
      · exact absurd hm (hnot poll hp)
  · obtain ⟨hreg, hpolls⟩ := handleDisconnect_polls s id
    refine ⟨?_, ?_, ?_⟩
    · rw [hreg, lookupKey_deleteKey, if_pos rfl]
    · intro k hk
      rw [hreg, lookupKey_deleteKey, if_neg hk]
    · intro hnot
      rcases hpolls with h1 | ⟨poll, q, hp, hm, -, -⟩
      · exact h1
      · exact absurd hm (hnot poll hp)

/-- C12, on the state of `Example.afterSecondVote`, which has no active poll:
the removal of `A` leaves the store as it was. -/
theorem removal_frame_witness :
    (removeStudent Example.afterSecondVote "A" false).state.polls =
        Example.afterSecondVote.polls ∧
      (handleDisconnect Example.afterSecondVote "A").state.polls =
        Example.afterSecondVote.polls :=
  ⟨(removal_frame Example.afterSecondVote "A" false).1.2.2
      (fun poll hp => Option.noConfusion
        ((show none = getActivePoll Example.afterSecondVote by decide).trans hp)),
    (removal_frame Example.afterSecondVote "A" false).2.2.2
      (fun poll hp => Option.noConfusion
        ((show none = getActivePoll Example.afterSecondVote by decide).trans hp))⟩

/-- C13 (register and join): `addStudent(id, name)` with a name that is blank
after trimming throws `Valid name is required` and changes nothing.  Otherwise
it returns; the registry maps `id` to the trimmed name, keeps every other
entry and has the same keys as before plus `id`, with no key twice if none was
before; with an active poll, that poll stays the active poll, maps `id` to the
trimmed name, keeps every other member, its responses, options and status,
and no other poll changes; with no active poll the store is unchanged.  A
second `addStudent` with the same id and name leaves the polls, the registry
keys and the registry names of the first. -/
theorem register_and_join (s : State) (id : SocketId) (name now : String) :
    (trim name = "" →
      addStudent s id name now =
        { state := s, events := [], error := some "Valid name is required" }) ∧
    (trim name ≠ "" →
      (addStudent s id name now).error = none ∧
      lookupKey id (addStudent s id name now).state.connectedStudents =
        some { name := trim name, connectedAt := some now } ∧
      (∀ k, k ≠ id → lookupKey k (addStudent s id name now).state.connectedStudents =
        lookupKey k s.connectedStudents) ∧
      (∀ k, k ∈ keys (addStudent s id name now).state.connectedStudents ↔
        k = id ∨ k ∈ keys s.connectedStudents) ∧
      ((keys s.connectedStudents).Nodup →
        (keys (addStudent s id name now).state.connectedStudents).Nodup) ∧
      (getActivePoll s = none → (addStudent s id name now).state.polls = s.polls) ∧
      (∀ poll, getActivePoll s = some poll →
        ∃ q, getActivePoll (addStudent s id name now).state = some q ∧
          (addStudent s id name now).state.polls = mutateActive (fun _ => q) s.polls ∧
          lookupKey id q.students = some { name := trim name, connectedAt := none } ∧
          (∀ k, k ≠ id → lookupKey k q.students = lookupKey k poll.students) ∧
          q.responses = poll.responses ∧ q.options = poll.options ∧
          q.status = poll.status ∧ q.id = poll.id) ∧
      (∀ now2 : String,
        (addStudent (addStudent s id name now).state id name now2).state.polls =
          (addStudent s id name now).state.polls ∧
        keys (addStudent (addStudent s id name now).state id name now2).state.connectedStudents =
          keys (addStudent s id name now).state.connectedStudents ∧
        ∀ k, (lookupKey k (addStudent (addStudent s id name now).state id name
            now2).state.connectedStudents).map Student.name =
          (lookupKey k (addStudent s id name now).state.connectedStudents).map
            Student.name)) := by
  refine ⟨addStudent_blank s id now, ?_⟩
  intro hname
  obtain ⟨herr, hreg⟩ := addStudent_registry s id now hname
  obtain ⟨-, hreg2⟩ := addStudent_registry (addStudent s id name now).state id now hname
  refine ⟨herr, ?_, ?_, ?_, ?_, ?_, ?_, ?_⟩
  · rw [hreg, lookupKey_setKey, if_pos rfl]
  · intro k hk
    rw [hreg, lookupKey_setKey, if_neg hk]
  · intro k
    rw [hreg]
    exact mem_keys_setKey id k _ _
  · intro hn
    rw [hreg]
    exact nodup_keys_setKey id _ hn
  · intro hp
    rw [addStudent_no_poll id now hname hp]
  · intro poll hp
    have hact : poll.status = Status.active := (getActivePoll_split hp).1
    rw [addStudent_active id now hname hp]
    have hg := getActivePoll_mutate hp
      (q := { poll with
                students := setKey id { name := trim name, connectedAt := none } poll.students })
      hact (setKey id { name := trim name, connectedAt := some now } s.connectedStudents)
    refine ⟨{ poll with
                students := setKey id { name := trim name, connectedAt := none } poll.students },
      hg, rfl, ?_, ?_, rfl, rfl, rfl, rfl⟩
    · simp only [lookupKey_setKey, if_true]
    · intro k hk
      simp only [lookupKey_setKey, hk, if_false]
  · intro now2
    obtain ⟨-, hreg3⟩ := addStudent_registry (addStudent s id name now).state id now2 hname
    refine ⟨addStudent_twice_polls s id now now2 hname, ?_, ?_⟩
    · rw [hreg3, hreg, setKey_setKey]
      exact keys_setKey id _ _ _
    · intro k
      rw [hreg3, hreg, setKey_setKey, lookupKey_setKey, lookupKey_setKey]
      by_cases hk : k = id
      · simp only [hk, if_true, Option.map_some']
      · simp only [hk, if_false]

/-- C13, on the state of `Example.afterFirstVote`: `C` joins under the name
` Cy `, and a blank name is refused. -/
theorem register_and_join_witness :
    addStudent Example.afterFirstVote "C" "  " "t4" =
        { state := Example.afterFirstVote, events := [],
          error := some "Valid name is required" } ∧
      lookupKey "C" (addStudent Example.afterFirstVote "C" " Cy " "t4").state.connectedStudents =
        some { name := "Cy", connectedAt := some "t4" } :=
  ⟨(register_and_join Example.afterFirstVote "C" "  " "t4").1 (by decide),
    ((register_and_join Example.afterFirstVote "C" " Cy " "t4").2 (by decide)).2.1⟩

/-- C14 (end-to-end scenario): from the empty registry and store, whatever the
generated id, the times, the distinct socket ids `A` and `B` and their
non-blank names, `createPoll('Best color?', ['Red','Blue'], 30)` returns and
leaves one active poll with counts `[0,0]`; after `A` and `B` join and `A`
votes for option 0 the poll is active with counts `[1,0]`; the vote of `B` for
option 1 returns, broadcasts the tally `[1,1]` with 2 answered of 2, then the
final counts `[1,1]`, and leaves the poll finished with counts `[1,1]`. -/
theorem end_to_end_scenario (t : Option SocketId) (pid : PollId) (n0 n1 n2 n3 n4 : String)
    (A B : SocketId) (nameA nameB : String) (hAB : A ≠ B)
    (hA : trim nameA ≠ "") (hB : trim nameB ≠ "") :
    createPoll State.empty "Best color?" ["Red", "Blue"] 30 t pid n0 =
      { state :=
          { polls :=
              [(pid,
                { id := pid
                  question := "Best color?"
                  options := [{ text := "Red", count := 0 }, { text := "Blue", count := 0 }]
                  responses := []
                  students := []
                  status := Status.active
                  timeLimit := 30
                  teacherSocketId := t
                  timer := some 30000
                  createdAt := n0 })]
            connectedStudents := [] }
        events := [Event.pollStarted pid "Best color?" ["Red", "Blue"] 30]
        error := none } ∧
    runAll State.empty
        [Op.createPoll "Best color?" ["Red", "Blue"] 30 t pid n0,
         Op.addStudent A nameA n1, Op.addStudent B nameB n2, Op.submitAnswer A 0 n3] =
      { polls :=
          [(pid,
            { id := pid
              question := "Best color?"
              options := [{ text := "Red", count := 1 }, { text := "Blue", count := 0 }]
              responses := [(A, 0)]
              students := [(A, { name := trim nameA, connectedAt := none }),
                           (B, { name := trim nameB, connectedAt := none })]
              status := Status.active
              timeLimit := 30
              teacherSocketId := t
              timer := some 30000
              createdAt := n0 })]
        connectedStudents :=
          [(A, { name := trim nameA, connectedAt := some n1 }),
           (B, { name := trim nameB, connectedAt := some n2 })] } ∧
    run (runAll State.empty
        [Op.createPoll "Best color?" ["Red", "Blue"] 30 t pid n0,
         Op.addStudent A nameA n1, Op.addStudent B nameB n2, Op.submitAnswer A 0 n3])
      (Op.submitAnswer B 1 n4) =
      { state :=
          { polls :=
              [(pid,
                { id := pid
                  question := "Best color?"
                  options := [{ text := "Red", count := 1 }, { text := "Blue", count := 1 }]
                  responses := [(A, 0), (B, 1)]
                  students := [(A, { name := trim nameA, connectedAt := none }),
                               (B, { name := trim nameB, connectedAt := none })]
                  status := Status.finished
                  timeLimit := 30
                  teacherSocketId := t
                  timer := none
                  createdAt := n0 })]
            connectedStudents :=
              [(A, { name := trim nameA, connectedAt := some n1 }),
               (B, { name := trim nameB, connectedAt := some n2 })] }
        events := [Event.pollUpdate pid [1, 1] 2 2,
                   Event.pollResults pid [1, 1] ["Red", "Blue"]]
        error := none } := by
  have hq : trim "Best color?" = "Best color?" := by decide
  have hr : trim "Red" = "Red" := by decide
  have hb : trim "Blue" = "Blue" := by decide
  have hBA : ¬ B = A := fun h => hAB h.symm
  refine ⟨?_, ?_, ?_⟩
  · simp [createPoll, getActivePoll, setKey, State.empty, hq, hr, hb]
  · simp [runAll, run, createPoll, addStudent, submitAnswer, getActivePoll, mutateActive, setKey,
      lookupKey, autoJoin, recordVote, modifyAt, endPoll, State.empty, keys, pollUpdate, counts,
      hAB, hBA, hA, hB, hq, hr, hb]
  · simp [runAll, run, createPoll, addStudent, submitAnswer, getActivePoll, mutateActive, setKey,
      lookupKey, autoJoin, recordVote, modifyAt, endPoll, State.empty, keys, pollUpdate, counts,
      hAB, hBA, hA, hB, hq, hr, hb]

/-- C14, with the ids `A` and `B`, the names `Ann` and `Bob` and the poll id
`p1`: the last vote broadcasts the tally and the final counts. -/
theorem end_to_end_scenario_witness :
    (run (runAll State.empty
        [Op.createPoll "Best color?" ["Red", "Blue"] 30 none "p1" "t0",
         Op.addStudent "A" "Ann" "t1", Op.addStudent "B" "Bob" "t2",
         Op.submitAnswer "A" 0 "t3"])
      (Op.submitAnswer "B" 1 "t4")).events =
      [Event.pollUpdate "p1" [1, 1] 2 2, Event.pollResults "p1" [1, 1] ["Red", "Blue"]] :=
  congrArg Outcome.events
    (end_to_end_scenario none "p1" "t0" "t1" "t2" "t3" "t4" "A" "B" "Ann" "Bob"
      (by decide) (by decide) (by decide)).2.2

/-- C15 (invalid option): for every state with an active poll, every id `p`
without a response and every integer `k`, `submitAnswer(p, k)` throws
`Invalid option` exactly when `k < 0` or `k` is at least the number of
options; in that case the poll is still the active poll and its responses,
options with their counts, and status are unchanged, and when `p` is already a
member the whole state is unchanged. -/
theorem invalid_option (s : State) (poll : Poll) (hp : getActivePoll s = some poll)
    (p : SocketId) (hr : p ∉ keys poll.responses) (k : Int) (now : String) :
    ((submitAnswer s p k now).error = some "Invalid option" ↔
      (k < 0 ∨ k ≥ (poll.options.length : Int))) ∧
    ((k < 0 ∨ k ≥ (poll.options.length : Int)) →
      (∃ q, getActivePoll (submitAnswer s p k now).state = some q ∧ q.id = poll.id ∧
        q.responses = poll.responses ∧ q.options = poll.options ∧ counts q = counts poll ∧
        q.status = poll.status) ∧
      (p ∈ keys poll.students → (submitAnswer s p k now).state = s)) := by
  have hnone : lookupKey p poll.responses = none :=
    (lookupKey_eq_none_iff p poll.responses).mpr hr
  have hact : poll.status = Status.active := (getActivePoll_split hp).1
  obtain ⟨hid, hst, hresp, hopt⟩ := autoJoin_frame s poll p now
  have hinvalid : (k < 0 ∨ k ≥ (poll.options.length : Int)) →
      submitAnswer s p k now =
        { state := { polls := mutateActive (fun _ => (autoJoin s poll p now).1) s.polls
                     connectedStudents := (autoJoin s poll p now).2.1 }
          events := (autoJoin s poll p now).2.2
          error := some "Invalid option" } := fun hk =>
    submitAnswer_invalid hp hnone now (by rw [hopt]; exact hk)
  refine ⟨⟨?_, fun hk => by rw [hinvalid hk]⟩, ?_⟩
  · intro herr
    by_contra hk
    have := submitAnswer_error_of_valid hp hnone now (k := k) (by omega) (by omega)
    rw [this] at herr
    exact Option.noConfusion herr
  · intro hk
    rw [hinvalid hk]
    refine ⟨⟨(autoJoin s poll p now).1, getActivePoll_mutate hp (hst.trans hact) _, hid, hresp,
      hopt, by simp only [counts, hopt], hst⟩, ?_⟩
    intro hm
    rw [autoJoin_member s hm now]
    simp only
    rw [mutateActive_self hp _ rfl]

/-- C15, on the state of `Example.afterFirstVote`: `B`, a member who has not
voted, submits index 2 of a poll with two options. -/
theorem invalid_option_witness :
    (submitAnswer Example.afterFirstVote "B" 2 "t4").error = some "Invalid option" ∧
      (submitAnswer Example.afterFirstVote "B" 2 "t4").state = Example.afterFirstVote :=
  ⟨(invalid_option Example.afterFirstVote Example.pollAfterFirstVote (by decide) "B"
      (by decide) 2 "t4").1.mpr (by decide),
    ((invalid_option Example.afterFirstVote Example.pollAfterFirstVote (by decide) "B"
      (by decide) 2 "t4").2 (by decide)).2 (by decide)⟩

/-- C17 (removal never terminates a poll): in every state `removeStudent` and
`handleDisconnect` leave the status of every stored poll as it was; and there
is a reachable state (`A` and `B` join the poll, `A` votes, `B` disconnects)
whose poll is still active although it has a participant and every
participant has answered. -/
theorem removal_never_terminates :
    (∀ (s : State) (id : SocketId) (socketFound : Bool),
      statuses (removeStudent s id socketFound).state = statuses s ∧
      statuses (handleDisconnect s id).state = statuses s) ∧
    (Reachable Example.afterBLeaves ∧
      ∃ p, getActivePoll Example.afterBLeaves = some p ∧ p.status = Status.active ∧
        keys p.students = ["A"] ∧ keys p.responses = ["A"] ∧
        (keys p.students ≠ [] ∧ ∀ id, id ∈ keys p.students → id ∈ keys p.responses)) := by
  constructor
  · intro s id socketFound
    constructor
    · rcases (removeStudent_polls s id socketFound).2 with h1 | ⟨poll, q, hp, -, hw, h1⟩
      · simp only [statuses, h1]
      · simp only [statuses, h1]
        exact statuses_mutate hp (withdraw_frame hw).2.1 s.connectedStudents
    · rcases (handleDisconnect_polls s id).2 with h1 | ⟨poll, q, hp, -, hw, h1⟩
      · simp only [statuses, h1]
      · simp only [statuses, h1]
        exact statuses_mutate hp (withdraw_frame hw).2.1 s.connectedStudents
  · exact ⟨(Reachable.empty.runAll Example.firstCalls :
        Reachable Example.afterFirstVote).runAll _,
      Example.pollAfterBLeaves, by decide, rfl, by decide, by decide, by decide, by decide⟩

/-- C18 (placeholder names can collide): with `X` a registered member who
never votes, the unknown ids `u1` and `u2` vote and are named `Anonymous1` and
`Anonymous2`; after `u1` is removed and the unknown id `u3` votes, the active
poll of this reachable state holds the distinct members `u2` and `u3` both
under the name `Anonymous2`. -/
theorem placeholder_names_collide :
    (getActivePoll Example.afterTwoAnonymous = some Example.pollAfterTwoAnonymous ∧
      (lookupKey "u1" Example.pollAfterTwoAnonymous.students).map Student.name =
        some "Anonymous1" ∧
      (lookupKey "u2" Example.pollAfterTwoAnonymous.students).map Student.name =
        some "Anonymous2") ∧
    Reachable Example.afterThirdAnonymous ∧
    getActivePoll Example.afterThirdAnonymous = some Example.pollAfterThirdAnonymous ∧
    "u2" ≠ "u3" ∧
    lookupKey "u1" Example.pollAfterThirdAnonymous.students = none ∧
    (lookupKey "u2" Example.pollAfterThirdAnonymous.students).map Student.name =
      some "Anonymous2" ∧
    (lookupKey "u3" Example.pollAfterThirdAnonymous.students).map Student.name =
      some "Anonymous2" :=
  ⟨⟨by decide, by decide, by decide⟩,
    (Reachable.empty.runAll Example.anonymousCalls :
      Reachable Example.afterTwoAnonymous).runAll _,
    by decide, by decide, by decide, by decide, by decide⟩

/-- C19 (a failed vote is not atomic): in a reachable state with an active
poll, when an id `p` that is neither a member of the poll nor in the registry
submits an out-of-range index, `submitAnswer` throws `Invalid option` and yet
the state has changed: `p` is now a member of the poll and an entry of the
registry under a placeholder name, one join event was broadcast, the poll has
one participant more and the same responses and options as before. -/
theorem failed_vote_not_atomic (s : State) (h : Reachable s) (poll : Poll)
    (hp : getActivePoll s = some poll) (p : SocketId) (hs : p ∉ keys poll.students)
    (hreg : p ∉ keys s.connectedStudents) (k : Int) (now : String)
    (hk : k < 0 ∨ k ≥ (poll.options.length : Int)) :
    (submitAnswer s p k now).error = some "Invalid option" ∧
    (submitAnswer s p k now).state ≠ s ∧
    (submitAnswer s p k now).events =
      [Event.studentJoined p ("Anonymous" ++ toString (anonCount poll + 1))] ∧
    lookupKey p (submitAnswer s p k now).state.connectedStudents =
      some { name := "Anonymous" ++ toString (anonCount poll + 1), connectedAt := some now } ∧
    ∃ q, getActivePoll (submitAnswer s p k now).state = some q ∧
      lookupKey p q.students =
        some { name := "Anonymous" ++ toString (anonCount poll + 1), connectedAt := none } ∧
      (keys q.students).length = (keys poll.students).length + 1 ∧
      (keys q.responses).length = (keys poll.responses).length ∧
      q.responses = poll.responses ∧ q.options = poll.options := by
  have hinv := h.inv
  have hpi := hinv.activePoll hp
  have hr : lookupKey p poll.responses = none :=
    (lookupKey_eq_none_iff p poll.responses).mpr (fun hc => hs (hpi.respondents p hc))
  have hname : anonName poll = "Anonymous" ++ toString (anonCount poll + 1) := by
    unfold anonName
    rw [anonNumber_eq hpi.studentsNodup]
  obtain ⟨herr, hev, hregs, -, hg, -⟩ := submitAnswer_invalid_spec hinv hp hr now hk
  rw [autoJoin_unknown s hs hreg now] at hev hregs hg
  simp only [hname] at hev hregs hg
  have hlook : lookupKey p (submitAnswer s p k now).state.connectedStudents =
      some { name := "Anonymous" ++ toString (anonCount poll + 1), connectedAt := some now } := by
    rw [hregs, lookupKey_setKey, if_pos rfl]
  refine ⟨herr, ?_, hev, hlook, _, hg, ?_, ?_, rfl, rfl, rfl⟩
  · intro heq
    rw [heq, (lookupKey_eq_none_iff p s.connectedStudents).mpr hreg] at hlook
    exact Option.noConfusion hlook
  · simp only [lookupKey_setKey, if_true]
  · show (keys (setKey p _ poll.students)).length = _
    rw [setKey_of_not_mem _ hs]
    simp [keys]

/-- C19, on the state of `Example.afterXJoins`: the unknown id `u1` submits
index 5 of a poll with two options. -/
theorem failed_vote_not_atomic_witness :
    (submitAnswer Example.afterXJoins "u1" 5 "t2").error = some "Invalid option" ∧
      (submitAnswer Example.afterXJoins "u1" 5 "t2").state ≠ Example.afterXJoins ∧
      lookupKey "u1" (submitAnswer Example.afterXJoins "u1" 5 "t2").state.connectedStudents =
        some { name := "Anonymous1", connectedAt := some "t2" } :=
  ⟨(failed_vote_not_atomic Example.afterXJoins (Reachable.empty.runAll _)
      Example.pollAfterXJoins (by decide) "u1" (by decide) (by decide) 5 "t2" (by decide)).1,
    (failed_vote_not_atomic Example.afterXJoins (Reachable.empty.runAll _)
      Example.pollAfterXJoins (by decide) "u1" (by decide) (by decide) 5 "t2" (by decide)).2.1,
    (failed_vote_not_atomic Example.afterXJoins (Reachable.empty.runAll _)
      Example.pollAfterXJoins (by decide) "u1" (by decide) (by decide) 5 "t2"
      (by decide)).2.2.2.1⟩

end Polling
